import Mathlib

/-! The DRM display backend of libva, `va/drm/va_drm.c`.

A shallow embedding of the DRM display backend of libva: the display-context
factory `vaGetDisplayDRM`, the validity predicate, the destructor, the driver
name resolver and the two buffer accessors, together with the properties the
specification states about them.

Conventions of the embedding.

* A pointer is an address (`Ptr`), `0` being `NULL`.  The C heap is a list of
  live blocks; dereferencing `NULL`, a dangling address or a block of another
  type is a fault, which the embedding renders as `none`.
* A C string is the list of the characters in its buffer; reading past the
  end of the list reads the terminating NUL.
* `int` values are integers; the one conversion to `size_t` in the file (the
  length argument of `strncmp`) is taken modulo `2 ^ 64`.
* The collaborators outside the file (libc's allocator, libdrm, the
  authentication helpers, the vendor driver) are parameters.
-/

namespace VaDrm

/-! ## C strings and `strncmp` -/

/-- The NUL character that terminates a C string. -/
def NUL : Char := Char.ofNat 0

/-- The characters held by a C string buffer; the terminating NUL is implicit. -/
abbrev CString := List Char

/-- The conversion of an `int` to `size_t` (64 bits). -/
def size_t_of_int (n : Int) : Nat := (n % (2 : Int) ^ 64).toNat

/-- The libc function `strncmp`: compares at most `n` characters, as unsigned
bytes, and stops after a NUL that both strings share. -/
def strncmp : CString → CString → Nat → Int
  | _, _, 0 => 0
  | s1, s2, n + 1 =>
    let c1 := s1.headD NUL
    let c2 := s2.headD NUL
    if c1 ≠ c2 then (c1.toNat : Int) - (c2.toNat : Int)
    else if c1 = NUL then 0
    else strncmp s1.tail s2.tail n

/-! ## The driver name table -/

/-- The C `struct driver_name_map`; a NULL string is `none`. -/
structure driver_name_map where
  key : Option CString
  key_len : Int
  name : Option CString
  deriving DecidableEq, Repr

/-- The table `g_driver_name_map`, with its terminating `{ NULL, }` entry. -/
def g_driver_name_map : List driver_name_map :=
  [ ⟨some "i915".toList, 4, some "i965".toList⟩,
    ⟨some "pvrsrvkm".toList, 8, some "pvr".toList⟩,
    ⟨some "emgd".toList, 4, some "emgd".toList⟩,
    ⟨none, 0, none⟩ ]

/-- The part of libdrm's `drmVersion` the resolver reads: the driver name and
the length the kernel reported for it. -/
structure drmVersion where
  name_len : Int
  name : CString
  deriving DecidableEq, Repr

/-- The scan of `va_DisplayContextGetDriverName`:
`for (m = map; m->key != NULL; m++) if (name_len >= m->key_len && strncmp(...) == 0) break;`
It returns the entry `m` points to when the loop ends; `none` when the scan
runs past the end of an array that has no terminating entry. -/
def scan (v : drmVersion) : List driver_name_map → Option driver_name_map
  | [] => none
  | m :: rest =>
    match m.key with
    | none => some m
    | some key =>
      if v.name_len ≥ m.key_len ∧ strncmp v.name key (size_t_of_int m.key_len) = 0 then some m
      else scan v rest

/-! ## Constants of the libva headers -/

/-- A pointer is an address; `0` is `NULL`. -/
abbrev Ptr := Nat

/-- A `VAStatus` is a C `int`. -/
abbrev VAStatus := Int

/-- Modelled from the spec: the status "success" of the fixed enumeration;
`va.h`, which declares it, is not part of the sources at hand. -/
def VA_STATUS_SUCCESS : VAStatus := 0

/-- Modelled from the spec: the status "operation-failed" (`va.h`). -/
def VA_STATUS_ERROR_OPERATION_FAILED : VAStatus := 1

/-- Modelled from the spec: the status "allocation-failure" (`va.h`). -/
def VA_STATUS_ERROR_ALLOCATION_FAILED : VAStatus := 2

/-- Modelled from the spec: the status "invalid-display" (`va.h`). -/
def VA_STATUS_ERROR_INVALID_DISPLAY : VAStatus := 3

/-- Modelled from the spec: the status "unimplemented" (`va.h`). -/
def VA_STATUS_ERROR_UNIMPLEMENTED : VAStatus := 0x14

/-- Modelled from the spec: the status "unknown-error" (`va.h`, where it is
`0xFFFFFFFF`, that is `-1` as an `int`). -/
def VA_STATUS_ERROR_UNKNOWN : VAStatus := -1

/-- Modelled from the spec: the type discriminant "DRM-backed" (`va_backend.h`). -/
def VA_DISPLAY_DRM : Nat := 0x30

/-- Modelled from the spec: the magic validity tag of a display context (`va_backend.h`). -/
def VA_DISPLAY_MAGIC : Nat := 0x56414430

/-- Modelled from the spec: the authentication type "custom" (`va_drmcommon.h`). -/
def VA_DRM_AUTH_CUSTOM : Nat := 3

/-! ## The objects the file allocates -/

/-- The C `struct drm_state`. -/
structure drm_state where
  fd : Int
  auth_type : Nat
  deriving DecidableEq, Repr

/-- The C `struct VADriverVTableDRM`; a function pointer is a code address, `0` being `NULL`. -/
structure VADriverVTableDRM where
  version : Nat
  vaGetSurfaceBufferDRM : Nat
  vaGetImageBufferDRM : Nat
  deriving DecidableEq, Repr

/-- The fields of the C `struct VADriverContext` that the file touches. -/
structure VADriverContext where
  native_dpy : Ptr
  display_type : Nat
  drm_state : Ptr
  vtable_drm : Ptr
  deriving DecidableEq, Repr

/-- The functions of the file whose address a display context stores. -/
inductive FuncPtr where
  | null
  | va_DisplayContextIsValid
  | va_DisplayContextDestroy
  | va_DisplayContextGetDriverName
  deriving DecidableEq, Repr

/-- The fields of the C `struct VADisplayContext` that the file touches. -/
structure VADisplayContext where
  vadpy_magic : Nat
  pDriverContext : Ptr
  vaIsValid : FuncPtr
  vaDestroy : FuncPtr
  vaGetDriverName : FuncPtr
  deriving DecidableEq, Repr

/-- The contents of a heap block. `raw` is a block of another type, such as a
caller's `VABufferInfoDRM`. -/
inductive Obj where
  | drm (s : drm_state)
  | vtable (v : VADriverVTableDRM)
  | driver (d : VADriverContext)
  | display (c : VADisplayContext)
  | raw (bytes : List Nat)
  deriving DecidableEq, Repr

/-! ## The heap and libc's allocator -/

/-- An allocator event: a successful allocation or the release of a block. -/
inductive MemEvent where
  | calloc (p : Ptr)
  | free (p : Ptr)
  deriving DecidableEq, Repr

/-- The heap: the live blocks, the number of `calloc` calls made so far and the
log of the allocator events, oldest first. -/
structure Heap where
  cells : List (Ptr × Obj)
  ncalloc : Nat
  trace : List MemEvent
  deriving DecidableEq, Repr

/-- The largest address among the blocks. -/
def maxAddr : List (Ptr × Obj) → Nat
  | [] => 0
  | c :: cs => max c.1 (maxAddr cs)

/-- The contents of the live block at `p`; `none` for `NULL` and for an
address that is not live. -/
def Heap.read (h : Heap) (p : Ptr) : Option Obj :=
  if p = 0 then none else (h.cells.find? (fun c => c.1 = p)).map Prod.snd

/-- Overwrites the contents of the block at `p`. -/
def Heap.write (h : Heap) (p : Ptr) (o : Obj) : Heap :=
  { h with cells := h.cells.map (fun c => if c.1 = p then (p, o) else c) }

/-- The libc function `calloc`. Whether call number `n` succeeds is `ok n`; a
successful call returns a fresh address holding the zero-initialised object
`zero`, a failing call returns `NULL`. -/
def calloc (ok : Nat → Bool) (zero : Obj) (h : Heap) : Ptr × Heap :=
  if ok h.ncalloc then
    let p := maxAddr h.cells + 1
    (p, { cells := (p, zero) :: h.cells, ncalloc := h.ncalloc + 1,
          trace := h.trace ++ [MemEvent.calloc p] })
  else
    (0, { h with ncalloc := h.ncalloc + 1 })

/-- The libc function `free`. `free(NULL)` does nothing; releasing an address
that is not live (a double or invalid free) is a fault. -/
def free (p : Ptr) (h : Heap) : Option Heap :=
  if p = 0 then some h
  else if (h.read p).isSome then
    some { h with cells := h.cells.filter (fun c => c.1 ≠ p),
                  trace := h.trace ++ [MemEvent.free p] }
  else none

/-- Reads `*p` as a `struct drm_state`. -/
def Heap.drm (h : Heap) (p : Ptr) : Option drm_state :=
  match h.read p with
  | some (Obj.drm s) => some s
  | _ => none

/-- Reads `*p` as a `struct VADriverVTableDRM`. -/
def Heap.vtable (h : Heap) (p : Ptr) : Option VADriverVTableDRM :=
  match h.read p with
  | some (Obj.vtable v) => some v
  | _ => none

/-- Reads `*p` as a `struct VADriverContext`. -/
def Heap.driver (h : Heap) (p : Ptr) : Option VADriverContext :=
  match h.read p with
  | some (Obj.driver d) => some d
  | _ => none

/-- Reads `*p` as a `struct VADisplayContext`. -/
def Heap.display (h : Heap) (p : Ptr) : Option VADisplayContext :=
  match h.read p with
  | some (Obj.display c) => some c
  | _ => none

/-- An assignment to fields of the `struct drm_state` at `p`. -/
def Heap.setDrm (h : Heap) (p : Ptr) (f : drm_state → drm_state) : Option Heap :=
  (h.drm p).map (fun s => h.write p (Obj.drm (f s)))

/-- An assignment to fields of the `struct VADriverVTableDRM` at `p`. -/
def Heap.setVtable (h : Heap) (p : Ptr) (f : VADriverVTableDRM → VADriverVTableDRM) : Option Heap :=
  (h.vtable p).map (fun v => h.write p (Obj.vtable (f v)))

/-- An assignment to fields of the `struct VADriverContext` at `p`. -/
def Heap.setDriver (h : Heap) (p : Ptr) (f : VADriverContext → VADriverContext) : Option Heap :=
  (h.driver p).map (fun d => h.write p (Obj.driver (f d)))

/-- An assignment to fields of the `struct VADisplayContext` at `p`. -/
def Heap.setDisplay (h : Heap) (p : Ptr) (f : VADisplayContext → VADisplayContext) : Option Heap :=
  (h.display p).map (fun c => h.write p (Obj.display (f c)))

/-! ## Validity predicate and destructor -/

/-- The C function `va_DisplayContextIsValid`:
`pDriverContext && pDriverContext->display_type == VA_DISPLAY_DRM`. -/
def va_DisplayContextIsValid (pDisplayContext : Ptr) (h : Heap) : Option Int := do
  let dc ← h.display pDisplayContext
  let pDriverContext := dc.pDriverContext
  if pDriverContext = 0 then pure 0
  else
    let d ← h.driver pDriverContext
    pure (if d.display_type = VA_DISPLAY_DRM then 1 else 0)

/-- The C function `va_DisplayContextDestroy`. -/
def va_DisplayContextDestroy (pDisplayContext : Ptr) (h : Heap) : Option Heap :=
  if pDisplayContext = 0 then some h
  else do
    -- free(pDisplayContext->pDriverContext->vtable_drm);
    let dc ← h.display pDisplayContext
    let d ← h.driver dc.pDriverContext
    let h ← free d.vtable_drm h
    -- free(pDisplayContext->pDriverContext->drm_state);
    let dc ← h.display pDisplayContext
    let d ← h.driver dc.pDriverContext
    let h ← free d.drm_state h
    -- free(pDisplayContext->pDriverContext);
    let dc ← h.display pDisplayContext
    let h ← free dc.pDriverContext h
    -- free(pDisplayContext);
    free pDisplayContext h

/-! ## The context factory -/

/-- The zero-filled objects `calloc` returns. -/
def drm_state.zero : drm_state := ⟨0, 0⟩

/-- The zero-filled dispatch table. -/
def VADriverVTableDRM.zero : VADriverVTableDRM := ⟨0, 0, 0⟩

/-- The zero-filled driver context. -/
def VADriverContext.zero : VADriverContext := ⟨0, 0, 0, 0⟩

/-- The zero-filled display context. -/
def VADisplayContext.zero : VADisplayContext := ⟨0, 0, FuncPtr.null, FuncPtr.null, FuncPtr.null⟩

/-- The `error:` label of `vaGetDisplayDRM`: releases the four locals and returns `NULL`. -/
def vaGetDisplayDRM.error (pDisplayContext pDriverContext drm_state vtable : Ptr) (h : Heap) :
    Option (Ptr × Heap) := do
  let h ← free pDisplayContext h
  let h ← free pDriverContext h
  let h ← free drm_state h
  let h ← free vtable h
  pure (0, h)

/-- The C function `vaGetDisplayDRM`. `VA_DRM_API_VERSION` is the constant of
`va_backend_drm.h`, `ok` the behaviour of libc's allocator. -/
def vaGetDisplayDRM (VA_DRM_API_VERSION : Nat) (ok : Nat → Bool) (fd : Int) (h : Heap) :
    Option (Ptr × Heap) :=
  if fd < 0 then some (0, h)
  else
    let (drm_state, h) := calloc ok (Obj.drm drm_state.zero) h
    if drm_state = 0 then vaGetDisplayDRM.error 0 0 drm_state 0 h
    else do
      let h ← h.setDrm drm_state (fun s => { s with fd := fd })
      let (pDriverContext, h) := calloc ok (Obj.driver VADriverContext.zero) h
      if pDriverContext = 0 then vaGetDisplayDRM.error 0 pDriverContext drm_state 0 h
      else do
        let h ← h.setDriver pDriverContext (fun d => { d with native_dpy := 0 })
        let h ← h.setDriver pDriverContext (fun d => { d with display_type := VA_DISPLAY_DRM })
        let h ← h.setDriver pDriverContext (fun d => { d with drm_state := drm_state })
        let (vtable, h) := calloc ok (Obj.vtable VADriverVTableDRM.zero) h
        if vtable = 0 then vaGetDisplayDRM.error 0 pDriverContext drm_state vtable h
        else do
          let h ← h.setVtable vtable (fun v => { v with version := VA_DRM_API_VERSION })
          let h ← h.setDriver pDriverContext (fun d => { d with vtable_drm := vtable })
          let (pDisplayContext, h) := calloc ok (Obj.display VADisplayContext.zero) h
          if pDisplayContext = 0 then
            vaGetDisplayDRM.error pDisplayContext pDriverContext drm_state vtable h
          else do
            let h ← h.setDisplay pDisplayContext (fun c => { c with vadpy_magic := VA_DISPLAY_MAGIC })
            let h ← h.setDisplay pDisplayContext (fun c => { c with pDriverContext := pDriverContext })
            let h ← h.setDisplay pDisplayContext
              (fun c => { c with vaIsValid := FuncPtr.va_DisplayContextIsValid })
            let h ← h.setDisplay pDisplayContext
              (fun c => { c with vaDestroy := FuncPtr.va_DisplayContextDestroy })
            let h ← h.setDisplay pDisplayContext
              (fun c => { c with vaGetDriverName := FuncPtr.va_DisplayContextGetDriverName })
            pure (pDisplayContext, h)

/-! ## The driver name resolver -/

/-- The libc function `strdup` once its allocation has succeeded: a copy of
the characters that precede the first NUL of the buffer. -/
def strdup (s : CString) : CString := s.takeWhile (fun c => c ≠ NUL)

/-- A call the resolver makes to a collaborator, with what the collaborator answered. -/
inductive Call where
  | drmGetVersion (fd : Int)
  | drmFreeVersion
  | strdup (s : CString) (succeeded : Bool)
  | drmGetMagic (fd : Int) (ret : Int)
  | va_drm_is_authenticated (fd : Int) (answer : Bool)
  | va_drm_authenticate (fd : Int) (magic : Nat) (answer : Bool)
  deriving DecidableEq, Repr

/-- The collaborators of the resolver, as transitions of a state `σ` of the
world outside the file: libdrm's `drmGetVersion` and `drmGetMagic` (return
code and cookie), whether the allocation of `strdup` succeeds, and the
helpers `va_drm_is_authenticated` and `va_drm_authenticate` of `va_drm_auth.c`. -/
structure Kernel (σ : Type) where
  drmGetVersion : Int → σ → Option drmVersion × σ
  strdup_ok : CString → σ → Bool × σ
  drmGetMagic : Int → σ → (Int × Nat) × σ
  va_drm_is_authenticated : Int → σ → Bool × σ
  va_drm_authenticate : Int → Nat → σ → Bool × σ

/-- What `va_DisplayContextGetDriverName` leaves behind: the status it
returns, the string stored in `*driver_name_ptr` (`none` for `NULL`), the
heap, the state of the world and the calls made, oldest first. -/
structure GetDriverNameResult (σ : Type) where
  status : VAStatus
  driver_name_ptr : Option CString
  heap : Heap
  world : σ
  calls : List Call

/-- The C function `va_DisplayContextGetDriverName`, over the name table `map`. -/
def va_DisplayContextGetDriverName {σ : Type} (map : List driver_name_map) (K : Kernel σ)
    (pDisplayContext : Ptr) (h : Heap) (w : σ) : Option (GetDriverNameResult σ) := do
  let dc ← h.display pDisplayContext
  let ctx := dc.pDriverContext
  let d ← h.driver ctx
  let drm_state := d.drm_state
  -- *driver_name_ptr = NULL;
  let st ← h.drm drm_state
  let (drm_version, w) := K.drmGetVersion st.fd w
  let calls := [Call.drmGetVersion st.fd]
  match drm_version with
  | none => pure ⟨VA_STATUS_ERROR_UNKNOWN, none, h, w, calls⟩
  | some v =>
    let m ← scan v map
    let calls := calls ++ [Call.drmFreeVersion]
    match m.name with
    | none => pure ⟨VA_STATUS_ERROR_UNKNOWN, none, h, w, calls⟩
    | some name =>
      let (copied, w) := K.strdup_ok name w
      let calls := calls ++ [Call.strdup name copied]
      if ¬ copied then pure ⟨VA_STATUS_ERROR_ALLOCATION_FAILED, none, h, w, calls⟩
      else
        let driver_name := strdup name
        -- *driver_name_ptr = driver_name;
        let ((ret, magic), w) := K.drmGetMagic st.fd w
        let calls := calls ++ [Call.drmGetMagic st.fd ret]
        if ret < 0 then pure ⟨VA_STATUS_ERROR_OPERATION_FAILED, some driver_name, h, w, calls⟩
        else
          let (auth, w) := K.va_drm_is_authenticated st.fd w
          let calls := calls ++ [Call.va_drm_is_authenticated st.fd auth]
          if ¬ auth then
            let (done, w) := K.va_drm_authenticate st.fd magic w
            let calls := calls ++ [Call.va_drm_authenticate st.fd magic done]
            if ¬ done then
              pure ⟨VA_STATUS_ERROR_OPERATION_FAILED, some driver_name, h, w, calls⟩
            else
              let (auth, w) := K.va_drm_is_authenticated st.fd w
              let calls := calls ++ [Call.va_drm_is_authenticated st.fd auth]
              if ¬ auth then
                pure ⟨VA_STATUS_ERROR_OPERATION_FAILED, some driver_name, h, w, calls⟩
              else
                let h ← h.setDrm drm_state (fun s => { s with auth_type := VA_DRM_AUTH_CUSTOM })
                pure ⟨VA_STATUS_SUCCESS, some driver_name, h, w, calls⟩
          else
            let h ← h.setDrm drm_state (fun s => { s with auth_type := VA_DRM_AUTH_CUSTOM })
            pure ⟨VA_STATUS_SUCCESS, some driver_name, h, w, calls⟩

/-! ## The buffer accessors -/

/-- Modelled from the spec: the function `vaDisplayIsValid` of `va.c`, which
is not part of the sources at hand; it validates the display handle "via the
magic tag and type discriminant": the handle is not `NULL`, carries the magic
tag and passes the validity predicate of its display context. -/
def vaDisplayIsValid (dpy : Ptr) (h : Heap) : Option Int :=
  if dpy = 0 then some 0
  else do
    let dc ← h.display dpy
    if dc.vadpy_magic ≠ VA_DISPLAY_MAGIC then pure 0
    else va_DisplayContextIsValid dpy h

/-- A call to a vendor handler: the code address called and its three arguments. -/
structure VendorCall where
  fn : Nat
  ctx : Ptr
  id : Nat
  out_buffer_info : Ptr
  deriving DecidableEq, Repr

/-- The vendor driver: what the code at a non-null address `fn` does when
called with a driver context, an object identifier and an output pointer. -/
abbrev Vendor := Nat → Ptr → Nat → Ptr → Heap → VAStatus × Heap

/-- What a buffer accessor leaves behind: the status it returns, the heap and
the vendor calls made. -/
structure AccessResult where
  status : VAStatus
  heap : Heap
  calls : List VendorCall
  deriving DecidableEq, Repr

/-- The macro `INIT_CONTEXT`: the status to return at once, or the driver context. -/
def INIT_CONTEXT (dpy : Ptr) (h : Heap) : Option (VAStatus ⊕ Ptr) := do
  let valid ← vaDisplayIsValid dpy h
  if valid = 0 then pure (Sum.inl VA_STATUS_ERROR_INVALID_DISPLAY)
  else
    let dc ← h.display dpy
    let ctx := dc.pDriverContext
    if ctx = 0 then pure (Sum.inl VA_STATUS_ERROR_INVALID_DISPLAY)
    else pure (Sum.inr ctx)

/-- The macro `INVOKE` followed by `return status;`. `func` selects the entry
`va##func##DRM` of the dispatch table. -/
def INVOKE (vendor : Vendor) (ctx : Ptr) (func : VADriverVTableDRM → Nat) (id : Nat)
    (out_buffer_info : Ptr) (h : Heap) : Option AccessResult := do
  let d ← h.driver ctx
  let vtable := d.vtable_drm
  if vtable = 0 then pure ⟨VA_STATUS_ERROR_UNIMPLEMENTED, h, []⟩
  else
    let vt ← h.vtable vtable
    if func vt = 0 then pure ⟨VA_STATUS_ERROR_UNIMPLEMENTED, h, []⟩
    else
      let (status, h1) := vendor (func vt) ctx id out_buffer_info h
      pure ⟨status, h1, [⟨func vt, ctx, id, out_buffer_info⟩]⟩

/-- The C function `vaGetSurfaceBufferDRM`. -/
def vaGetSurfaceBufferDRM (vendor : Vendor) (dpy : Ptr) (surface : Nat) (out_buffer_info : Ptr)
    (h : Heap) : Option AccessResult := do
  match ← INIT_CONTEXT dpy h with
  | Sum.inl status => pure ⟨status, h, []⟩
  | Sum.inr ctx => INVOKE vendor ctx VADriverVTableDRM.vaGetSurfaceBufferDRM surface out_buffer_info h

/-- The C function `vaGetImageBufferDRM`. -/
def vaGetImageBufferDRM (vendor : Vendor) (dpy : Ptr) (image : Nat) (out_buffer_info : Ptr)
    (h : Heap) : Option AccessResult := do
  match ← INIT_CONTEXT dpy h with
  | Sum.inl status => pure ⟨status, h, []⟩
  | Sum.inr ctx => INVOKE vendor ctx VADriverVTableDRM.vaGetImageBufferDRM image out_buffer_info h

/-- The empty heap. -/
def Heap.empty : Heap := ⟨[], 0, []⟩

/-- A world whose collaborators answer from a fixed script: the version,
whether `strdup` succeeds, the return code of `drmGetMagic`, the answers of
the first and second `va_drm_is_authenticated` and of `va_drm_authenticate`.
The state counts the `va_drm_is_authenticated` calls. -/
def scripted (v : Option drmVersion) (copied : Bool) (ret : Int) (auth1 done auth2 : Bool) :
    Kernel Nat where
  drmGetVersion := fun _ w => (v, w)
  strdup_ok := fun _ w => (copied, w)
  drmGetMagic := fun _ w => ((ret, 42), w)
  va_drm_is_authenticated := fun _ w => (if w = 0 then auth1 else auth2, w + 1)
  va_drm_authenticate := fun _ _ w => (done, w)

/-- The heap a successful `vaGetDisplayDRM` leaves: four new blocks, linked. -/
def builtCells (ver : Nat) (fd : Int) (cs : List (Ptr × Obj)) : List (Ptr × Obj) :=
  (maxAddr cs + 4, Obj.display ⟨VA_DISPLAY_MAGIC, maxAddr cs + 2, FuncPtr.va_DisplayContextIsValid,
      FuncPtr.va_DisplayContextDestroy, FuncPtr.va_DisplayContextGetDriverName⟩) ::
  (maxAddr cs + 3, Obj.vtable ⟨ver, 0, 0⟩) ::
  (maxAddr cs + 2, Obj.driver ⟨0, VA_DISPLAY_DRM, maxAddr cs + 1, maxAddr cs + 3⟩) ::
  (maxAddr cs + 1, Obj.drm ⟨fd, 0⟩) :: cs

/-! ## Bookkeeping of the allocator log -/

/-- The addresses a log records as allocated. -/
def allocated (es : List MemEvent) : List Ptr :=
  es.filterMap (fun e => match e with | MemEvent.calloc p => some p | MemEvent.free _ => none)

/-- The addresses a log records as released. -/
def released (es : List MemEvent) : List Ptr :=
  es.filterMap (fun e => match e with | MemEvent.free p => some p | MemEvent.calloc _ => none)

/-- The events `h1` logged after the state `h`. -/
def newEvents (h h1 : Heap) : List MemEvent := h1.trace.drop h.trace.length

/-- A fully constructed display: the display context at `p` points to the
driver context `d`, which points to the DRM state `s` and the dispatch table
`v`; the four blocks are live and distinct. -/
def FullyLinked (h : Heap) (p d s v : Ptr) : Prop :=
  [p, d, s, v].Nodup ∧
  (∃ c, h.display p = some c ∧ c.pDriverContext = d) ∧
  (∃ x, h.driver d = some x ∧ x.drm_state = s ∧ x.vtable_drm = v) ∧
  (h.drm s).isSome ∧ (h.vtable v).isSome

/-! ## Well-formed name tables and the specification of a match -/

/-- A table entry other than the terminating one is well formed when its key
and its name are strings without NUL and `key_len` is the length of the key,
which fits an `int`. -/
def driver_name_map.WellFormed (m : driver_name_map) : Prop :=
  ∃ k nm, m.key = some k ∧ m.name = some nm ∧ m.key_len = (k.length : Int) ∧
    k.length < 2 ^ 31 ∧ NUL ∉ k ∧ NUL ∉ nm

/-- A name table is well formed when it is a list of well-formed entries
followed by a terminating entry, whose key is `NULL`. -/
def TableWF (map : List driver_name_map) : Prop :=
  ∃ es term, map = es ++ [term] ∧ (∀ m ∈ es, m.WellFormed) ∧ term.key = none

/-- The match the specification describes: the key of the entry is no longer
than the reported name length and is a prefix of the name. -/
def keyMatches (v : drmVersion) (m : driver_name_map) : Bool :=
  match m.key with
  | none => false
  | some k => decide ((k.length : Int) ≤ v.name_len) && decide (k <+: v.name)

/-- The first entry of the table that matches, in table order. -/
def firstMatch (v : drmVersion) (map : List driver_name_map) : Option driver_name_map :=
  map.find? (keyMatches v)

/-- The heap a successful `vaGetDisplayDRM` of descriptor 5 builds from the
empty heap; the display context is at address 4. -/
def demoHeap : Heap := ⟨builtCells 7 5 [], 4,
  [MemEvent.calloc 1, MemEvent.calloc 2, MemEvent.calloc 3, MemEvent.calloc 4]⟩

/-- The heap `demoHeap` once a vendor driver has populated the dispatch
table with handlers at the code addresses 77 and 78. -/
def demoHeapPopulated : Heap := ⟨[
  (4, Obj.display ⟨VA_DISPLAY_MAGIC, 2, FuncPtr.va_DisplayContextIsValid,
    FuncPtr.va_DisplayContextDestroy, FuncPtr.va_DisplayContextGetDriverName⟩),
  (3, Obj.vtable ⟨7, 77, 78⟩),
  (2, Obj.driver ⟨0, VA_DISPLAY_DRM, 1, 3⟩),
  (1, Obj.drm ⟨5, 0⟩)], 4,
  [MemEvent.calloc 1, MemEvent.calloc 2, MemEvent.calloc 3, MemEvent.calloc 4]⟩

/-- A vendor driver whose handlers answer `VA_STATUS_ERROR_INVALID_SURFACE`
(6 in `va.h`) and touch nothing. -/
def demoVendor : Vendor := fun _ _ _ _ h => (6, h)

/-- The statuses the specification lists: success, invalid-display,
unimplemented, allocation-failure, operation-failed, unknown-error. -/
def listedStatuses : List VAStatus :=
  [VA_STATUS_SUCCESS, VA_STATUS_ERROR_INVALID_DISPLAY, VA_STATUS_ERROR_UNIMPLEMENTED,
   VA_STATUS_ERROR_ALLOCATION_FAILED, VA_STATUS_ERROR_OPERATION_FAILED, VA_STATUS_ERROR_UNKNOWN]

/-! ## Facts about the heap -/

theorem le_maxAddr {cs : List (Ptr × Obj)} {c : Ptr × Obj} (hc : c ∈ cs) :
    (c.1 : Nat) ≤ maxAddr cs := by
  induction cs with
  | nil => cases hc
  | cons d ds ih =>
    rcases List.mem_cons.1 hc with rfl | h
    · simp [maxAddr]
    · have h1 : (c.1 : Nat) ≤ maxAddr ds := ih h
      have h2 : maxAddr ds ≤ max (d.1 : Nat) (maxAddr ds) := le_max_right _ _
      exact le_trans h1 h2

theorem ne_of_fresh {cs : List (Ptr × Obj)} {c : Ptr × Obj} {p : Ptr} (hp : maxAddr cs < p)
    (hc : c ∈ cs) : ¬ c.1 = p := by
  have h1 : (c.1 : Nat) ≤ maxAddr cs := le_maxAddr hc
  intro h
  rw [h] at h1
  exact absurd hp (Nat.not_lt.2 h1)

theorem find_fresh {cs : List (Ptr × Obj)} {p : Ptr} (hp : maxAddr cs < p) :
    cs.find? (fun c => decide (c.1 = p)) = none := by
  rw [List.find?_eq_none]
  intro c hc
  simp only [decide_eq_true_eq]
  exact ne_of_fresh hp hc

theorem map_fresh {cs : List (Ptr × Obj)} {p : Ptr} (o : Obj) (hp : maxAddr cs < p) :
    cs.map (fun c => if c.1 = p then (p, o) else c) = cs := by
  conv_rhs => rw [← List.map_id cs]
  apply List.map_congr_left
  intro c hc
  simp [ne_of_fresh hp hc]

theorem filter_fresh {cs : List (Ptr × Obj)} {p : Ptr} (hp : maxAddr cs < p) :
    cs.filter (fun c => decide (c.1 ≠ p)) = cs := by
  rw [List.filter_eq_self]
  intro c hc
  simp only [ne_eq, decide_not, Bool.not_eq_true', decide_eq_false_iff_not]
  exact ne_of_fresh hp hc

theorem maxAddr_cons_fresh {cs : List (Ptr × Obj)} {p : Ptr} (o : Obj) (hp : maxAddr cs < p) :
    maxAddr ((p, o) :: cs) = p := by
  simp only [maxAddr]
  exact max_eq_left (le_of_lt hp)

/-- Reading the block allocated last. -/
theorem read_head {cs : List (Ptr × Obj)} {n : Nat} {t : List MemEvent} {p : Ptr} {o : Obj}
    (hp : p ≠ 0) : Heap.read ⟨(p, o) :: cs, n, t⟩ p = some o := by
  simp [Heap.read, hp]

/-- Reading a block other than the one allocated last. -/
theorem read_tail {cs : List (Ptr × Obj)} {n : Nat} {t : List MemEvent} {p q : Ptr} {o : Obj}
    (hq : p ≠ q) : Heap.read ⟨(p, o) :: cs, n, t⟩ q = Heap.read ⟨cs, n, t⟩ q := by
  simp [Heap.read, hq]

/-- Writing the block allocated last. -/
theorem write_head {cs : List (Ptr × Obj)} {n : Nat} {t : List MemEvent} {p : Ptr} {o : Obj}
    (o1 : Obj) (hp : maxAddr cs < p) :
    Heap.write ⟨(p, o) :: cs, n, t⟩ p o1 = ⟨(p, o1) :: cs, n, t⟩ := by
  simp [Heap.write, map_fresh o1 hp]

/-- Writing a block other than the one allocated last. -/
theorem write_tail {cs : List (Ptr × Obj)} {n : Nat} {t : List MemEvent} {p q : Ptr} {o : Obj}
    (o1 : Obj) (hq : p ≠ q) :
    Heap.write ⟨(p, o) :: cs, n, t⟩ q o1 = ⟨(p, o) :: (Heap.write ⟨cs, n, t⟩ q o1).cells, n, t⟩ := by
  simp [Heap.write, hq]

/-- Releasing the block allocated last. -/
theorem free_head {cs : List (Ptr × Obj)} {n : Nat} {t : List MemEvent} {p : Ptr} {o : Obj}
    (hp : maxAddr cs < p) :
    free p ⟨(p, o) :: cs, n, t⟩ = some ⟨cs, n, t ++ [MemEvent.free p]⟩ := by
  have h0 : p ≠ 0 := fun h => Nat.not_lt_zero _ (h ▸ hp)
  have hf : ((p, o) :: cs).filter (fun c => decide (c.1 ≠ p)) = cs := by
    rw [List.filter_cons_of_neg (by simp), filter_fresh hp]
  unfold free
  rw [if_neg h0, read_head h0]
  simp only [Option.isSome_some, if_true, hf]

/-- `free(NULL)`. -/
theorem free_null (h : Heap) : free 0 h = some h := by
  simp [free]

/-- Releasing the block allocated before the last one. -/
theorem free_second {cs : List (Ptr × Obj)} {n : Nat} {t : List MemEvent} {p q : Nat} {o o1 : Obj}
    (hp : maxAddr cs < p) (hq : p < q) :
    free p ⟨(q, o) :: (p, o1) :: cs, n, t⟩ = some ⟨(q, o) :: cs, n, t ++ [MemEvent.free p]⟩ := by
  have h0 : p ≠ 0 := fun h => Nat.not_lt_zero _ (h ▸ hp)
  have hqp : q ≠ p := Nat.ne_of_gt hq
  have hf : ((q, o) :: (p, o1) :: cs).filter (fun c => decide (c.1 ≠ p)) = (q, o) :: cs := by
    rw [List.filter_cons_of_pos (by simp [hqp]), List.filter_cons_of_neg (by simp),
      filter_fresh hp]
  unfold free
  rw [if_neg h0, read_tail hqp, read_head h0]
  simp only [Option.isSome_some, if_true, hf]

theorem setDrm_head {cs : List (Ptr × Obj)} {n : Nat} {t : List MemEvent} {p : Nat} {s : drm_state}
    (f : drm_state → drm_state) (hp : maxAddr cs < p) :
    Heap.setDrm ⟨(p, Obj.drm s) :: cs, n, t⟩ p f = some ⟨(p, Obj.drm (f s)) :: cs, n, t⟩ := by
  have h0 : p ≠ 0 := fun h => Nat.not_lt_zero _ (h ▸ hp)
  simp only [Heap.setDrm, Heap.drm, read_head h0, Option.map_some', write_head _ hp]

theorem setDriver_head {cs : List (Ptr × Obj)} {n : Nat} {t : List MemEvent} {p : Nat}
    {d : VADriverContext} (f : VADriverContext → VADriverContext) (hp : maxAddr cs < p) :
    Heap.setDriver ⟨(p, Obj.driver d) :: cs, n, t⟩ p f
      = some ⟨(p, Obj.driver (f d)) :: cs, n, t⟩ := by
  have h0 : p ≠ 0 := fun h => Nat.not_lt_zero _ (h ▸ hp)
  simp only [Heap.setDriver, Heap.driver, read_head h0, Option.map_some', write_head _ hp]

theorem setVtable_head {cs : List (Ptr × Obj)} {n : Nat} {t : List MemEvent} {p : Nat}
    {v : VADriverVTableDRM} (f : VADriverVTableDRM → VADriverVTableDRM) (hp : maxAddr cs < p) :
    Heap.setVtable ⟨(p, Obj.vtable v) :: cs, n, t⟩ p f
      = some ⟨(p, Obj.vtable (f v)) :: cs, n, t⟩ := by
  have h0 : p ≠ 0 := fun h => Nat.not_lt_zero _ (h ▸ hp)
  simp only [Heap.setVtable, Heap.vtable, read_head h0, Option.map_some', write_head _ hp]

theorem setDisplay_head {cs : List (Ptr × Obj)} {n : Nat} {t : List MemEvent} {p : Nat}
    {c : VADisplayContext} (f : VADisplayContext → VADisplayContext) (hp : maxAddr cs < p) :
    Heap.setDisplay ⟨(p, Obj.display c) :: cs, n, t⟩ p f
      = some ⟨(p, Obj.display (f c)) :: cs, n, t⟩ := by
  have h0 : p ≠ 0 := fun h => Nat.not_lt_zero _ (h ▸ hp)
  simp only [Heap.setDisplay, Heap.display, read_head h0, Option.map_some', write_head _ hp]

theorem setDriver_second {cs : List (Ptr × Obj)} {n : Nat} {t : List MemEvent} {p q : Nat}
    {o : Obj} {d : VADriverContext} (f : VADriverContext → VADriverContext)
    (hp : maxAddr cs < p) (hq : p < q) :
    Heap.setDriver ⟨(q, o) :: (p, Obj.driver d) :: cs, n, t⟩ p f
      = some ⟨(q, o) :: (p, Obj.driver (f d)) :: cs, n, t⟩ := by
  have h0 : p ≠ 0 := fun h => Nat.not_lt_zero _ (h ▸ hp)
  have hqp : q ≠ p := Nat.ne_of_gt hq
  simp only [Heap.setDriver, Heap.driver, read_tail hqp, read_head h0, Option.map_some',
    write_tail _ hqp, write_head _ hp]

/-- The allocator succeeding. -/
theorem calloc_ok {ok : Nat → Bool} {cs : List (Ptr × Obj)} {n : Nat} {t : List MemEvent}
    (zero : Obj) (h : ok n = true) :
    calloc ok zero ⟨cs, n, t⟩
      = (maxAddr cs + 1, ⟨(maxAddr cs + 1, zero) :: cs, n + 1,
          t ++ [MemEvent.calloc (maxAddr cs + 1)]⟩) := by
  simp [calloc, h]

/-- The allocator failing. -/
theorem calloc_fail {ok : Nat → Bool} {cs : List (Ptr × Obj)} {n : Nat} {t : List MemEvent}
    (zero : Obj) (h : ok n = false) :
    calloc ok zero ⟨cs, n, t⟩ = (0, ⟨cs, n + 1, t⟩) := by
  simp [calloc, h]

/-- All four allocations succeeding. -/
theorem vaGetDisplayDRM_ok (ver : Nat) (ok : Nat → Bool) (fd : Int) (cs : List (Ptr × Obj))
    (n : Nat) (t : List MemEvent) (hfd : ¬ fd < 0) (h0 : ok n = true) (h1 : ok (n + 1) = true)
    (h2 : ok (n + 2) = true) (h3 : ok (n + 3) = true) :
    vaGetDisplayDRM ver ok fd ⟨cs, n, t⟩
      = some (maxAddr cs + 4, ⟨builtCells ver fd cs, n + 4,
          t ++ [MemEvent.calloc (maxAddr cs + 1), MemEvent.calloc (maxAddr cs + 2),
            MemEvent.calloc (maxAddr cs + 3), MemEvent.calloc (maxAddr cs + 4)]⟩) := by
  have e1 : maxAddr cs < maxAddr cs + 1 := by omega
  have e2 : ∀ o, maxAddr ((maxAddr cs + 1, o) :: cs) = maxAddr cs + 1 := fun o =>
    maxAddr_cons_fresh o e1
  have l2 : ∀ o, maxAddr ((maxAddr cs + 1, o) :: cs) < maxAddr cs + 1 + 1 := fun o => by
    rw [e2]; omega
  have e3 : ∀ o o1, maxAddr ((maxAddr cs + 1 + 1, o) :: (maxAddr cs + 1, o1) :: cs)
      = maxAddr cs + 1 + 1 := fun o o1 => maxAddr_cons_fresh o (l2 o1)
  have l3 : ∀ o o1, maxAddr ((maxAddr cs + 1 + 1, o) :: (maxAddr cs + 1, o1) :: cs)
      < maxAddr cs + 1 + 1 + 1 := fun o o1 => by rw [e3]; omega
  have e4 : ∀ o o1 o2, maxAddr ((maxAddr cs + 1 + 1 + 1, o) :: (maxAddr cs + 1 + 1, o1) ::
      (maxAddr cs + 1, o2) :: cs) = maxAddr cs + 1 + 1 + 1 :=
    fun o o1 o2 => maxAddr_cons_fresh o (l3 o1 o2)
  have l4 : ∀ o o1 o2, maxAddr ((maxAddr cs + 1 + 1 + 1, o) :: (maxAddr cs + 1 + 1, o1) ::
      (maxAddr cs + 1, o2) :: cs) < maxAddr cs + 1 + 1 + 1 + 1 := fun o o1 o2 => by
    rw [e4]; omega
  unfold vaGetDisplayDRM
  rw [if_neg hfd, calloc_ok _ h0]
  simp only [Nat.add_one_ne_zero, if_false]
  rw [setDrm_head _ e1]
  simp only [Option.bind_eq_bind, Option.some_bind]
  rw [calloc_ok _ h1]
  simp only [e2, Nat.add_one_ne_zero, if_false]
  rw [setDriver_head _ (l2 _)]
  simp only [Option.some_bind]
  rw [setDriver_head _ (l2 _)]
  simp only [Option.some_bind]
  rw [setDriver_head _ (l2 _)]
  simp only [Option.some_bind]
  rw [calloc_ok _ h2]
  simp only [e3, Nat.add_one_ne_zero, if_false]
  rw [setVtable_head _ (l3 _ _)]
  simp only [Option.some_bind]
  rw [setDriver_second _ (l2 _) (Nat.lt_succ_self _)]
  simp only [Option.some_bind]
  rw [calloc_ok _ h3]
  simp only [e4, Nat.add_one_ne_zero, if_false]
  rw [setDisplay_head _ (l4 _ _ _)]
  simp only [Option.some_bind]
  rw [setDisplay_head _ (l4 _ _ _)]
  simp only [Option.some_bind]
  rw [setDisplay_head _ (l4 _ _ _)]
  simp only [Option.some_bind]
  rw [setDisplay_head _ (l4 _ _ _)]
  simp only [Option.some_bind]
  rw [setDisplay_head _ (l4 _ _ _)]
  simp only [Option.some_bind]
  simp [builtCells, VADriverVTableDRM.zero, drm_state.zero, Nat.add_assoc]

/-- The first allocation failing. -/
theorem vaGetDisplayDRM_fail0 (ver : Nat) (ok : Nat → Bool) (fd : Int) (cs : List (Ptr × Obj))
    (n : Nat) (t : List MemEvent) (hfd : ¬ fd < 0) (h0 : ok n = false) :
    vaGetDisplayDRM ver ok fd ⟨cs, n, t⟩
      = some (0, ⟨cs, n + 1, t⟩) := by
  unfold vaGetDisplayDRM
  rw [if_neg hfd, calloc_fail _ h0]
  simp only [if_true, vaGetDisplayDRM.error, free_null, Option.bind_eq_bind, Option.some_bind]
  rfl

/-- The second allocation failing. -/
theorem vaGetDisplayDRM_fail1 (ver : Nat) (ok : Nat → Bool) (fd : Int) (cs : List (Ptr × Obj))
    (n : Nat) (t : List MemEvent) (hfd : ¬ fd < 0) (h0 : ok n = true) (h1 : ok (n + 1) = false) :
    vaGetDisplayDRM ver ok fd ⟨cs, n, t⟩
      = some (0, ⟨cs, n + 2, t ++ [MemEvent.calloc (maxAddr cs + 1), MemEvent.free (maxAddr cs + 1)]⟩) := by
  have e1 : maxAddr cs < maxAddr cs + 1 := by omega
  unfold vaGetDisplayDRM
  rw [if_neg hfd, calloc_ok _ h0]
  simp only [Nat.add_one_ne_zero, if_false]
  rw [setDrm_head _ e1]
  simp only [Option.bind_eq_bind, Option.some_bind]
  rw [calloc_fail _ h1]
  simp only [if_true, vaGetDisplayDRM.error, free_null, Option.bind_eq_bind, Option.some_bind]
  rw [free_head e1]
  simp

/-- The third allocation failing. -/
theorem vaGetDisplayDRM_fail2 (ver : Nat) (ok : Nat → Bool) (fd : Int) (cs : List (Ptr × Obj))
    (n : Nat) (t : List MemEvent) (hfd : ¬ fd < 0) (h0 : ok n = true) (h1 : ok (n + 1) = true)
    (h2 : ok (n + 2) = false) :
    vaGetDisplayDRM ver ok fd ⟨cs, n, t⟩
      = some (0, ⟨cs, n + 3, t ++ [MemEvent.calloc (maxAddr cs + 1),
          MemEvent.calloc (maxAddr cs + 2), MemEvent.free (maxAddr cs + 2),
          MemEvent.free (maxAddr cs + 1)]⟩) := by
  have e1 : maxAddr cs < maxAddr cs + 1 := by omega
  have e2 : ∀ o, maxAddr ((maxAddr cs + 1, o) :: cs) = maxAddr cs + 1 := fun o =>
    maxAddr_cons_fresh o e1
  have l2 : ∀ o, maxAddr ((maxAddr cs + 1, o) :: cs) < maxAddr cs + 1 + 1 := fun o => by
    rw [e2]; omega
  unfold vaGetDisplayDRM
  rw [if_neg hfd, calloc_ok _ h0]
  simp only [Nat.add_one_ne_zero, if_false]
  rw [setDrm_head _ e1]
  simp only [Option.bind_eq_bind, Option.some_bind]
  rw [calloc_ok _ h1]
  simp only [e2, Nat.add_one_ne_zero, if_false]
  rw [setDriver_head _ (l2 _)]
  simp only [Option.some_bind]
  rw [setDriver_head _ (l2 _)]
  simp only [Option.some_bind]
  rw [setDriver_head _ (l2 _)]
  simp only [Option.some_bind]
  rw [calloc_fail _ h2]
  simp only [if_true, vaGetDisplayDRM.error, free_null, Option.bind_eq_bind, Option.some_bind]
  rw [free_head (l2 _)]
  simp only [Option.some_bind]
  rw [free_head e1]
  simp [Nat.add_assoc]

/-- The fourth allocation failing. -/
theorem vaGetDisplayDRM_fail3 (ver : Nat) (ok : Nat → Bool) (fd : Int) (cs : List (Ptr × Obj))
    (n : Nat) (t : List MemEvent) (hfd : ¬ fd < 0) (h0 : ok n = true) (h1 : ok (n + 1) = true)
    (h2 : ok (n + 2) = true) (h3 : ok (n + 3) = false) :
    vaGetDisplayDRM ver ok fd ⟨cs, n, t⟩
      = some (0, ⟨cs, n + 4, t ++ [MemEvent.calloc (maxAddr cs + 1),
          MemEvent.calloc (maxAddr cs + 2), MemEvent.calloc (maxAddr cs + 3),
          MemEvent.free (maxAddr cs + 2), MemEvent.free (maxAddr cs + 1),
          MemEvent.free (maxAddr cs + 3)]⟩) := by
  have e1 : maxAddr cs < maxAddr cs + 1 := by omega
  have e1b : maxAddr cs < maxAddr cs + 1 + 1 + 1 := by omega
  have e2 : ∀ o, maxAddr ((maxAddr cs + 1, o) :: cs) = maxAddr cs + 1 := fun o =>
    maxAddr_cons_fresh o e1
  have l2 : ∀ o, maxAddr ((maxAddr cs + 1, o) :: cs) < maxAddr cs + 1 + 1 := fun o => by
    rw [e2]; omega
  have e3 : ∀ o o1, maxAddr ((maxAddr cs + 1 + 1, o) :: (maxAddr cs + 1, o1) :: cs)
      = maxAddr cs + 1 + 1 := fun o o1 => maxAddr_cons_fresh o (l2 o1)
  have l3 : ∀ o o1, maxAddr ((maxAddr cs + 1 + 1, o) :: (maxAddr cs + 1, o1) :: cs)
      < maxAddr cs + 1 + 1 + 1 := fun o o1 => by rw [e3]; omega
  unfold vaGetDisplayDRM
  rw [if_neg hfd, calloc_ok _ h0]
  simp only [Nat.add_one_ne_zero, if_false]
  rw [setDrm_head _ e1]
  simp only [Option.bind_eq_bind, Option.some_bind]
  rw [calloc_ok _ h1]
  simp only [e2, Nat.add_one_ne_zero, if_false]
  rw [setDriver_head _ (l2 _)]
  simp only [Option.some_bind]
  rw [setDriver_head _ (l2 _)]
  simp only [Option.some_bind]
  rw [setDriver_head _ (l2 _)]
  simp only [Option.some_bind]
  rw [calloc_ok _ h2]
  simp only [e3, Nat.add_one_ne_zero, if_false]
  rw [setVtable_head _ (l3 _ _)]
  simp only [Option.some_bind]
  rw [setDriver_second _ (l2 _) (Nat.lt_succ_self _)]
  simp only [Option.some_bind]
  rw [calloc_fail _ h3]
  simp only [if_true, vaGetDisplayDRM.error, free_null, Option.bind_eq_bind, Option.some_bind]
  rw [free_second (l2 _) (Nat.lt_succ_self _)]
  simp only [Option.some_bind]
  rw [free_second e1 (by omega)]
  simp only [Option.some_bind]
  rw [free_head e1b]
  simp [Nat.add_assoc]

/-- Releasing the third block from the top. -/
theorem free_third {cs : List (Ptr × Obj)} {n : Nat} {t : List MemEvent} {p q r : Nat}
    {o o1 o2 : Obj} (hp : maxAddr cs < p) (hq : p < q) (hr : p < r) :
    free p ⟨(r, o) :: (q, o1) :: (p, o2) :: cs, n, t⟩
      = some ⟨(r, o) :: (q, o1) :: cs, n, t ++ [MemEvent.free p]⟩ := by
  have h0 : p ≠ 0 := fun h => Nat.not_lt_zero _ (h ▸ hp)
  have hqp : q ≠ p := Nat.ne_of_gt hq
  have hrp : r ≠ p := Nat.ne_of_gt hr
  have hf : ((r, o) :: (q, o1) :: (p, o2) :: cs).filter (fun c => decide (c.1 ≠ p))
      = (r, o) :: (q, o1) :: cs := by
    rw [List.filter_cons_of_pos (by simp [hrp]), List.filter_cons_of_pos (by simp [hqp]),
      List.filter_cons_of_neg (by simp), filter_fresh hp]
  unfold free
  rw [if_neg h0, read_tail hrp, read_tail hqp, read_head h0]
  simp only [Option.isSome_some, if_true, hf]

/-- The destructor on four linked blocks allocated in the factory's order. -/
theorem va_DisplayContextDestroy_linked (cs : List (Ptr × Obj)) (n : Nat) (t : List MemEvent)
    (p1 p2 p3 p4 : Nat) (s : drm_state) (d : VADriverContext) (v : VADriverVTableDRM)
    (c : VADisplayContext) (h1 : maxAddr cs < p1) (h2 : p1 < p2) (h3 : p2 < p3) (h4 : p3 < p4)
    (hc : c.pDriverContext = p2) (hs : d.drm_state = p1) (hv : d.vtable_drm = p3) :
    va_DisplayContextDestroy p4
        ⟨(p4, Obj.display c) :: (p3, Obj.vtable v) :: (p2, Obj.driver d) :: (p1, Obj.drm s) :: cs, n, t⟩
      = some ⟨cs, n, t ++ [MemEvent.free p3, MemEvent.free p1, MemEvent.free p2,
          MemEvent.free p4]⟩ := by
  have z1 : p1 ≠ 0 := fun h => Nat.not_lt_zero _ (h ▸ h1)
  have z2 : p2 ≠ 0 := by omega
  have z4 : p4 ≠ 0 := by omega
  have n42 : p4 ≠ p2 := by omega
  have n32 : p3 ≠ p2 := by omega
  have m1 : maxAddr ((p1, Obj.drm s) :: cs) < p2 := by rw [maxAddr_cons_fresh _ h1]; exact h2
  have m2 : maxAddr ((p2, Obj.driver d) :: (p1, Obj.drm s) :: cs) < p3 := by
    rw [maxAddr_cons_fresh _ m1]; exact h3
  have l2 : maxAddr cs < p2 := by omega
  have l4 : maxAddr cs < p4 := by omega
  unfold va_DisplayContextDestroy
  rw [if_neg z4]
  simp only [Option.bind_eq_bind, Heap.display, Heap.driver, read_head z4, Option.some_bind, hc,
    read_tail n42, read_tail n32, read_head z2, hv, hs]
  rw [free_second m2 h4]
  simp only [Option.some_bind, read_head z4, hc, read_tail n42, read_head z2, hs]
  rw [free_third h1 h2 (by omega)]
  simp only [Option.some_bind, read_head z4, hc]
  rw [free_second l2 (by omega)]
  simp only [Option.some_bind]
  rw [free_head l4]
  simp

/-- The outcomes of `vaGetDisplayDRM`. -/
theorem vaGetDisplayDRM_cases (ver : Nat) (ok : Nat → Bool) (fd : Int) (cs : List (Ptr × Obj))
    (n : Nat) (t : List MemEvent) :
    (fd < 0 ∧ vaGetDisplayDRM ver ok fd ⟨cs, n, t⟩ = some (0, ⟨cs, n, t⟩)) ∨
    (¬ fd < 0 ∧ ∃ k es, vaGetDisplayDRM ver ok fd ⟨cs, n, t⟩ = some (0, ⟨cs, n + k, t ++ es⟩) ∧
      (released es).Nodup ∧ (released es).Perm (allocated es)) ∨
    (¬ fd < 0 ∧ vaGetDisplayDRM ver ok fd ⟨cs, n, t⟩
      = some (maxAddr cs + 4, ⟨builtCells ver fd cs, n + 4,
          t ++ [MemEvent.calloc (maxAddr cs + 1), MemEvent.calloc (maxAddr cs + 2),
            MemEvent.calloc (maxAddr cs + 3), MemEvent.calloc (maxAddr cs + 4)]⟩)) := by
  by_cases hfd : fd < 0
  · left
    exact ⟨hfd, by simp [vaGetDisplayDRM, hfd]⟩
  · right
    cases h0 : ok n with
    | false =>
      left
      refine ⟨hfd, 1, [], ?_, ?_, ?_⟩
      · rw [vaGetDisplayDRM_fail0 ver ok fd cs n t hfd h0]; simp
      · simp [released]
      · simp [released, allocated]
    | true =>
      cases h1 : ok (n + 1) with
      | false =>
        left
        refine ⟨hfd, 2, _, vaGetDisplayDRM_fail1 ver ok fd cs n t hfd h0 h1, ?_, ?_⟩
        · simp [released]
        · simp [released, allocated]
      | true =>
        cases h2 : ok (n + 2) with
        | false =>
          left
          refine ⟨hfd, 3, _, vaGetDisplayDRM_fail2 ver ok fd cs n t hfd h0 h1 h2, ?_, ?_⟩
          · simp [released]
          · simp only [released, allocated, List.filterMap_cons, List.filterMap_nil]
            exact List.Perm.swap _ _ _
        | true =>
          cases h3 : ok (n + 3) with
          | false =>
            left
            refine ⟨hfd, 4, _, vaGetDisplayDRM_fail3 ver ok fd cs n t hfd h0 h1 h2 h3, ?_, ?_⟩
            · simp [released]
            · simp only [released, allocated, List.filterMap_cons, List.filterMap_nil]
              exact List.Perm.swap _ _ _
          | true =>
            right
            exact ⟨hfd, vaGetDisplayDRM_ok ver ok fd cs n t hfd h0 h1 h2 h3⟩


/-! ## Facts about `strncmp` and the scan -/

theorem toNat_ne_zero_of_ne_NUL {c : Char} (hc : c ≠ NUL) : c.toNat ≠ 0 := by
  intro h
  apply hc
  have h1 : Char.ofNat c.toNat = c := Char.ofNat_toNat c
  rw [h] at h1
  exact h1.symm

theorem toNat_sub_ne_zero {a c : Char} (h : a ≠ c) : (a.toNat : Int) - (c.toNat : Int) ≠ 0 := by
  intro h0
  apply h
  have h1 : a.toNat = c.toNat := by omega
  have h2 : Char.ofNat a.toNat = Char.ofNat c.toNat := by rw [h1]
  rwa [Char.ofNat_toNat, Char.ofNat_toNat] at h2

/-- Against a key without NUL, `strncmp` over the length of the key answers 0
exactly when the key is a prefix of the string. -/
theorem strncmp_eq_zero_iff (k : CString) (hk : NUL ∉ k) (s : CString) :
    strncmp s k k.length = 0 ↔ k <+: s := by
  induction k generalizing s with
  | nil => simp [strncmp]
  | cons c k ih =>
    have hc : c ≠ NUL := fun h => hk (by simp [h])
    have hk1 : NUL ∉ k := fun h => hk (List.mem_cons_of_mem _ h)
    cases s with
    | nil =>
      have : NUL ≠ c := fun h => hc h.symm
      simp [strncmp, this, toNat_sub_ne_zero this]
    | cons a s =>
      by_cases hac : a = c
      · subst hac
        simp [strncmp, hc, ih hk1 s, List.cons_prefix_cons]
      · have hca : ¬ c = a := fun h => hac h.symm
        simp [strncmp, hac, hca, toNat_sub_ne_zero hac, List.cons_prefix_cons]

theorem size_t_of_int_length (k : CString) (hk : k.length < 2 ^ 31) :
    size_t_of_int (k.length : Int) = k.length := by
  unfold size_t_of_int
  have h1 : ((k.length : Int)) % (2 : Int) ^ 64 = (k.length : Int) := by
    apply Int.emod_eq_of_lt
    · omega
    · have : (k.length : Int) < 2 ^ 31 := by exact_mod_cast hk
      omega
  rw [h1]
  simp

/-- On a well-formed entry the test of the loop is the match of the specification. -/
theorem test_iff_keyMatches (v : drmVersion) (m : driver_name_map) (k : CString)
    (hkey : m.key = some k) (hwf : m.WellFormed) :
    (v.name_len ≥ m.key_len ∧ strncmp v.name k (size_t_of_int m.key_len) = 0)
      ↔ keyMatches v m = true := by
  obtain ⟨k1, nm, h1, _, h3, h4, h5, _⟩ := hwf
  rw [hkey] at h1
  cases h1
  rw [h3, size_t_of_int_length k h4, strncmp_eq_zero_iff k h5]
  simp [keyMatches, hkey]

/-- The scan of a well-formed table stops at the first matching entry, or at
the terminating entry when none matches. -/
theorem scan_eq_firstMatch (v : drmVersion) (es : List driver_name_map) (term : driver_name_map)
    (hes : ∀ m ∈ es, m.WellFormed) (hterm : term.key = none) :
    scan v (es ++ [term]) = some ((firstMatch v (es ++ [term])).getD term) := by
  induction es with
  | nil => simp [scan, hterm, firstMatch, keyMatches]
  | cons m es ih =>
    have hm : m.WellFormed := hes m (List.mem_cons_self _ _)
    have ih1 := ih (fun x hx => hes x (List.mem_cons_of_mem _ hx))
    obtain ⟨k, nm, hk, hn, _⟩ := id hm
    have ht := test_iff_keyMatches v m k hk hm
    by_cases hmatch : keyMatches v m = true
    · have := ht.2 hmatch
      simp [scan, hk, this, firstMatch, hmatch]
    · have hno : ¬ (v.name_len ≥ m.key_len ∧ strncmp v.name k (size_t_of_int m.key_len) = 0) :=
        fun h => hmatch (ht.1 h)
      have hstep : scan v (m :: (es ++ [term])) = scan v (es ++ [term]) := by
        simp only [scan, hk, if_neg hno]
      rw [List.cons_append, hstep, ih1]
      simp [firstMatch, hmatch]

/-! ## The context factory, the validity predicate and the destructor -/

/-- Reading the four blocks at the top of the heap. -/
theorem read_four (cs : List (Ptr × Obj)) (n : Nat) (t : List MemEvent) (p1 p2 p3 p4 : Nat)
    (o1 o2 o3 o4 : Obj) (h1 : 0 < p1) (h2 : p1 < p2) (h3 : p2 < p3) (h4 : p3 < p4) :
    Heap.read ⟨(p4, o4) :: (p3, o3) :: (p2, o2) :: (p1, o1) :: cs, n, t⟩ p4 = some o4 ∧
    Heap.read ⟨(p4, o4) :: (p3, o3) :: (p2, o2) :: (p1, o1) :: cs, n, t⟩ p3 = some o3 ∧
    Heap.read ⟨(p4, o4) :: (p3, o3) :: (p2, o2) :: (p1, o1) :: cs, n, t⟩ p2 = some o2 ∧
    Heap.read ⟨(p4, o4) :: (p3, o3) :: (p2, o2) :: (p1, o1) :: cs, n, t⟩ p1 = some o1 := by
  have z1 : p1 ≠ 0 := by omega
  have z2 : p2 ≠ 0 := by omega
  have z3 : p3 ≠ 0 := by omega
  have z4 : p4 ≠ 0 := by omega
  have n43 : p4 ≠ p3 := by omega
  have n42 : p4 ≠ p2 := by omega
  have n41 : p4 ≠ p1 := by omega
  have n32 : p3 ≠ p2 := by omega
  have n31 : p3 ≠ p1 := by omega
  have n21 : p2 ≠ p1 := by omega
  refine ⟨read_head z4, ?_, ?_, ?_⟩
  · rw [read_tail n43, read_head z3]
  · rw [read_tail n42, read_tail n32, read_head z2]
  · rw [read_tail n41, read_tail n31, read_tail n21, read_head z1]

/-- The typed reads of the heap a successful construction leaves. -/
theorem reads_built (ver : Nat) (fd : Int) (cs : List (Ptr × Obj)) (n : Nat) (t : List MemEvent) :
    Heap.display ⟨builtCells ver fd cs, n, t⟩ (maxAddr cs + 4)
      = some ⟨VA_DISPLAY_MAGIC, maxAddr cs + 2, FuncPtr.va_DisplayContextIsValid,
          FuncPtr.va_DisplayContextDestroy, FuncPtr.va_DisplayContextGetDriverName⟩ ∧
    Heap.vtable ⟨builtCells ver fd cs, n, t⟩ (maxAddr cs + 3) = some ⟨ver, 0, 0⟩ ∧
    Heap.driver ⟨builtCells ver fd cs, n, t⟩ (maxAddr cs + 2)
      = some ⟨0, VA_DISPLAY_DRM, maxAddr cs + 1, maxAddr cs + 3⟩ ∧
    Heap.drm ⟨builtCells ver fd cs, n, t⟩ (maxAddr cs + 1) = some ⟨fd, 0⟩ := by
  obtain ⟨r4, r3, r2, r1⟩ := read_four cs n t (maxAddr cs + 1) (maxAddr cs + 2) (maxAddr cs + 3)
    (maxAddr cs + 4) (Obj.drm ⟨fd, 0⟩)
    (Obj.driver ⟨0, VA_DISPLAY_DRM, maxAddr cs + 1, maxAddr cs + 3⟩) (Obj.vtable ⟨ver, 0, 0⟩)
    (Obj.display ⟨VA_DISPLAY_MAGIC, maxAddr cs + 2, FuncPtr.va_DisplayContextIsValid,
      FuncPtr.va_DisplayContextDestroy, FuncPtr.va_DisplayContextGetDriverName⟩)
    (by omega) (by omega) (by omega) (by omega)
  unfold Heap.display Heap.vtable Heap.driver Heap.drm builtCells
  rw [r4, r3, r2, r1]
  exact ⟨rfl, rfl, rfl, rfl⟩

/-- C4: for every descriptor `fd ≥ 0` for which `vaGetDisplayDRM` returns a
non-null handle, the validity predicate `va_DisplayContextIsValid` answers
true on the returned display context, the display type of its driver context
is `VA_DISPLAY_DRM`, its magic tag is `VA_DISPLAY_MAGIC`, and its DRM state
holds the descriptor that was passed in. -/
theorem vaGetDisplayDRM_valid (ver : Nat) (ok : Nat → Bool) (fd : Int) (h h1 : Heap) (dpy : Ptr)
    (_hfd : 0 ≤ fd) (hres : vaGetDisplayDRM ver ok fd h = some (dpy, h1)) (hdpy : dpy ≠ 0) :
    va_DisplayContextIsValid dpy h1 = some 1 ∧
    ∃ c d s, h1.display dpy = some c ∧ h1.driver c.pDriverContext = some d ∧
      h1.drm d.drm_state = some s ∧
      d.display_type = VA_DISPLAY_DRM ∧ c.vadpy_magic = VA_DISPLAY_MAGIC ∧ s.fd = fd := by
  obtain ⟨cs, n, t⟩ := h
  rcases vaGetDisplayDRM_cases ver ok fd cs n t with ⟨_, e⟩ | ⟨_, k, es, e, _, _⟩ | ⟨_, e⟩
  · rw [e] at hres
    simp only [Option.some.injEq, Prod.mk.injEq] at hres
    exact absurd hres.1.symm hdpy
  · rw [e] at hres
    simp only [Option.some.injEq, Prod.mk.injEq] at hres
    exact absurd hres.1.symm hdpy
  · rw [e] at hres
    simp only [Option.some.injEq, Prod.mk.injEq] at hres
    obtain ⟨rfl, rfl⟩ := hres
    obtain ⟨r4, _, r2, r1⟩ := reads_built ver fd cs (n + 4)
      (t ++ [MemEvent.calloc (maxAddr cs + 1), MemEvent.calloc (maxAddr cs + 2),
        MemEvent.calloc (maxAddr cs + 3), MemEvent.calloc (maxAddr cs + 4)])
    refine ⟨?_, _, _, _, r4, r2, r1, rfl, rfl, rfl⟩
    unfold va_DisplayContextIsValid
    rw [r4]
    simp only [Option.bind_eq_bind, Option.some_bind, Nat.add_one_ne_zero, if_false]
    rw [r2]
    simp

/-- C5: construction is all or nothing. For every descriptor and every
pattern of success and failure of the allocations, `vaGetDisplayDRM` returns;
for a negative descriptor it returns `NULL` and leaves the heap, the
allocation count included, as it was; when it returns a non-null handle the
display context, the driver context, the DRM state and the dispatch table
are the four blocks it allocated, live and linked, and nothing was released;
when it returns `NULL` the live blocks are those of before the call, and the
blocks it released are, each exactly once, the blocks it allocated. -/
theorem vaGetDisplayDRM_all_or_nothing (ver : Nat) (ok : Nat → Bool) (fd : Int) (h : Heap) :
    ∃ dpy h1, vaGetDisplayDRM ver ok fd h = some (dpy, h1) ∧
      h1.trace = h.trace ++ newEvents h h1 ∧
      (fd < 0 → dpy = 0 ∧ h1 = h) ∧
      (dpy ≠ 0 → ∃ d s v, FullyLinked h1 dpy d s v ∧
        allocated (newEvents h h1) = [s, d, v, dpy] ∧ released (newEvents h h1) = []) ∧
      (dpy = 0 → h1.cells = h.cells ∧ (released (newEvents h h1)).Nodup ∧
        (released (newEvents h h1)).Perm (allocated (newEvents h h1))) := by
  obtain ⟨cs, n, t⟩ := h
  rcases vaGetDisplayDRM_cases ver ok fd cs n t with ⟨hfd, e⟩ | ⟨hfd, k, es, e, hnd, hperm⟩ | ⟨hfd, e⟩
  · refine ⟨_, _, e, ?_, fun _ => ⟨rfl, rfl⟩, fun hne => absurd rfl hne, fun _ => ?_⟩
    · simp [newEvents]
    · simp [newEvents, released, allocated]
  · refine ⟨_, _, e, ?_, fun hneg => absurd hneg hfd, fun hne => absurd rfl hne, fun _ => ?_⟩
    · simp [newEvents]
    · simpa [newEvents] using ⟨hnd, hperm⟩
  · refine ⟨_, _, e, ?_, fun hneg => absurd hneg hfd, fun _ => ?_, fun h0 => ?_⟩
    · simp [newEvents]
    · obtain ⟨r4, r3, r2, r1⟩ := reads_built ver fd cs (n + 4)
        (t ++ [MemEvent.calloc (maxAddr cs + 1), MemEvent.calloc (maxAddr cs + 2),
          MemEvent.calloc (maxAddr cs + 3), MemEvent.calloc (maxAddr cs + 4)])
      refine ⟨maxAddr cs + 2, maxAddr cs + 1, maxAddr cs + 3, ⟨?_, ⟨_, r4, rfl⟩, ⟨_, r2, rfl, rfl⟩,
        ?_, ?_⟩, ?_, ?_⟩
      · simp
      · rw [r1]; rfl
      · rw [r3]; rfl
      · simp [newEvents, allocated]
      · simp [newEvents, released]
    · exact absurd h0 (Nat.add_one_ne_zero _)

/-- C6: `va_DisplayContextDestroy` does nothing on a null display context: it
returns and leaves the heap and the allocator log as they were. On the
display context a successful `vaGetDisplayDRM` returns, it releases the
dispatch table, the DRM state, the driver context and the display context,
in that order and nothing else; these are the four blocks the construction
allocated, and the live blocks are again those of before the construction. -/
theorem va_DisplayContextDestroy_releases :
    (∀ h : Heap, va_DisplayContextDestroy 0 h = some h) ∧
    (∀ (ver : Nat) (ok : Nat → Bool) (fd : Int) (h h1 : Heap) (dpy : Ptr),
      vaGetDisplayDRM ver ok fd h = some (dpy, h1) → dpy ≠ 0 →
      ∃ d s v h2, FullyLinked h1 dpy d s v ∧
        allocated (newEvents h h1) = [s, d, v, dpy] ∧
        va_DisplayContextDestroy dpy h1 = some h2 ∧
        h2.trace = h1.trace ++ [MemEvent.free v, MemEvent.free s, MemEvent.free d,
          MemEvent.free dpy] ∧
        h2.cells = h.cells) := by
  refine ⟨fun h => by simp [va_DisplayContextDestroy], ?_⟩
  intro ver ok fd h h1 dpy hres hdpy
  obtain ⟨cs, n, t⟩ := h
  rcases vaGetDisplayDRM_cases ver ok fd cs n t with ⟨_, e⟩ | ⟨_, k, es, e, _, _⟩ | ⟨_, e⟩
  · rw [e] at hres
    simp only [Option.some.injEq, Prod.mk.injEq] at hres
    exact absurd hres.1.symm hdpy
  · rw [e] at hres
    simp only [Option.some.injEq, Prod.mk.injEq] at hres
    exact absurd hres.1.symm hdpy
  · rw [e] at hres
    simp only [Option.some.injEq, Prod.mk.injEq] at hres
    obtain ⟨rfl, rfl⟩ := hres
    obtain ⟨r4, r3, r2, r1⟩ := reads_built ver fd cs (n + 4)
      (t ++ [MemEvent.calloc (maxAddr cs + 1), MemEvent.calloc (maxAddr cs + 2),
        MemEvent.calloc (maxAddr cs + 3), MemEvent.calloc (maxAddr cs + 4)])
    have hd := va_DisplayContextDestroy_linked cs (n + 4)
      (t ++ [MemEvent.calloc (maxAddr cs + 1), MemEvent.calloc (maxAddr cs + 2),
        MemEvent.calloc (maxAddr cs + 3), MemEvent.calloc (maxAddr cs + 4)])
      (maxAddr cs + 1) (maxAddr cs + 2) (maxAddr cs + 3) (maxAddr cs + 4) ⟨fd, 0⟩
      ⟨0, VA_DISPLAY_DRM, maxAddr cs + 1, maxAddr cs + 3⟩ ⟨ver, 0, 0⟩
      ⟨VA_DISPLAY_MAGIC, maxAddr cs + 2, FuncPtr.va_DisplayContextIsValid,
        FuncPtr.va_DisplayContextDestroy, FuncPtr.va_DisplayContextGetDriverName⟩
      (by omega) (by omega) (by omega) (by omega) rfl rfl rfl
    refine ⟨maxAddr cs + 2, maxAddr cs + 1, maxAddr cs + 3, _, ⟨?_, ⟨_, r4, rfl⟩, ⟨_, r2, rfl, rfl⟩,
      ?_, ?_⟩, ?_, hd, rfl, rfl⟩
    · simp
    · rw [r1]; rfl
    · rw [r3]; rfl
    · simp [newEvents, allocated]



/-! ## Properties of the driver name resolver -/

/-- The shipped table is well formed. -/
theorem g_driver_name_map_wf :
    ∀ m ∈ g_driver_name_map.take 3, m.WellFormed := by
  intro m hm
  simp only [g_driver_name_map, List.take, List.mem_cons, List.mem_singleton, List.mem_nil_iff,
    or_false] at hm
  rcases hm with rfl | rfl | rfl
  · exact ⟨_, _, rfl, rfl, by decide, by decide, by decide, by decide⟩
  · exact ⟨_, _, rfl, rfl, by decide, by decide, by decide, by decide⟩
  · exact ⟨_, _, rfl, rfl, by decide, by decide, by decide, by decide⟩

/-- The scan of the shipped table. -/
theorem scan_g_driver_name_map (v : drmVersion) :
    scan v g_driver_name_map
      = some ((firstMatch v g_driver_name_map).getD ⟨none, 0, none⟩) :=
  scan_eq_firstMatch v (g_driver_name_map.take 3) ⟨none, 0, none⟩ g_driver_name_map_wf rfl

/-- C7: for every kernel-reported driver name that has no key of the shipped
table as a prefix, `va_DisplayContextGetDriverName` returns
`VA_STATUS_ERROR_UNKNOWN` and leaves `*driver_name_ptr` `NULL`, whatever the
collaborators would answer; it calls neither the magic-cookie nor the
authentication collaborators and leaves the heap as it was. -/
theorem va_DisplayContextGetDriverName_unknown_name {σ : Type} (K : Kernel σ) (dpy : Ptr) (h : Heap)
    (w w1 : σ) (c : VADisplayContext) (d : VADriverContext) (st : drm_state) (v : drmVersion)
    (hc : h.display dpy = some c) (hd : h.driver c.pDriverContext = some d)
    (hs : h.drm d.drm_state = some st) (hv : K.drmGetVersion st.fd w = (some v, w1))
    (hno : ∀ m ∈ g_driver_name_map, ∀ k, m.key = some k → ¬ k <+: v.name) :
    ∃ r, va_DisplayContextGetDriverName g_driver_name_map K dpy h w = some r ∧
      r.status = VA_STATUS_ERROR_UNKNOWN ∧ r.driver_name_ptr = none ∧
      r.calls = [Call.drmGetVersion st.fd, Call.drmFreeVersion] ∧ r.heap = h := by
  have hf : firstMatch v g_driver_name_map = none := by
    unfold firstMatch
    rw [List.find?_eq_none]
    intro m hm
    cases hk : m.key with
    | none => simp [keyMatches, hk]
    | some k => simp [keyMatches, hk, hno m hm k hk]
  have hscan := scan_g_driver_name_map v
  rw [hf] at hscan
  simp [va_DisplayContextGetDriverName, hc, hd, hs, hv, hscan]

/-- The outcomes of the resolver: it fails with "unknown" or "allocation
failed" before a name is stored, and otherwise stores the copy of the name of
the entry the scan stopped at, ending in "operation failed" with the heap
untouched or in success with the authentication type recorded. -/
theorem resolver_cases {σ : Type} (map : List driver_name_map) (K : Kernel σ) (dpy : Ptr)
    (h : Heap) (w : σ) (r : GetDriverNameResult σ)
    (hres : va_DisplayContextGetDriverName map K dpy h w = some r) :
    ∃ c d st, h.display dpy = some c ∧ h.driver c.pDriverContext = some d ∧
      h.drm d.drm_state = some st ∧
      ((r.status = VA_STATUS_ERROR_UNKNOWN ∧ r.driver_name_ptr = none ∧ r.heap = h ∧
          ((K.drmGetVersion st.fd w).1 = none ∨
            ∃ v m, (K.drmGetVersion st.fd w).1 = some v ∧ scan v map = some m ∧ m.name = none)) ∨
       (∃ v m nm, (K.drmGetVersion st.fd w).1 = some v ∧ scan v map = some m ∧
          m.name = some nm ∧ (K.strdup_ok nm (K.drmGetVersion st.fd w).2).1 = false ∧
          r.status = VA_STATUS_ERROR_ALLOCATION_FAILED ∧ r.driver_name_ptr = none ∧ r.heap = h) ∨
       (∃ v m nm, (K.drmGetVersion st.fd w).1 = some v ∧ scan v map = some m ∧
          m.name = some nm ∧ (K.strdup_ok nm (K.drmGetVersion st.fd w).2).1 = true ∧
          r.driver_name_ptr = some (strdup nm) ∧
          ((r.status = VA_STATUS_ERROR_OPERATION_FAILED ∧ r.heap = h) ∨
           (r.status = VA_STATUS_SUCCESS ∧
            h.setDrm d.drm_state (fun s => { s with auth_type := VA_DRM_AUTH_CUSTOM })
              = some r.heap)))) := by
  unfold va_DisplayContextGetDriverName at hres
  simp only [Option.bind_eq_bind, Option.bind_eq_some] at hres
  obtain ⟨c, hc, d, hd, st, hs, hres⟩ := hres
  refine ⟨c, d, st, hc, hd, hs, ?_⟩
  cases hv : (K.drmGetVersion st.fd w).1 with
  | none =>
    rw [hv] at hres
    simp only [Option.pure_def, Option.some.injEq] at hres
    subst hres
    exact Or.inl ⟨rfl, rfl, rfl, Or.inl rfl⟩
  | some v =>
    rw [hv] at hres
    simp only [Option.bind_eq_some] at hres
    obtain ⟨m, hm, hres⟩ := hres
    cases hn : m.name with
    | none =>
      rw [hn] at hres
      simp only [Option.pure_def, Option.some.injEq] at hres
      subst hres
      exact Or.inl ⟨rfl, rfl, rfl, Or.inr ⟨v, m, rfl, hm, hn⟩⟩
    | some nm =>
      rw [hn] at hres
      simp only at hres
      by_cases hdup : (K.strdup_ok nm (K.drmGetVersion st.fd w).2).1 = true
      · rw [if_neg (not_not.2 hdup)] at hres
        split_ifs at hres
        all_goals first
          | (simp only [Option.pure_def, Option.some.injEq] at hres
             subst hres
             exact Or.inr (Or.inr ⟨v, m, nm, rfl, hm, hn, hdup, rfl, Or.inl ⟨rfl, rfl⟩⟩))
          | (simp only [Option.pure_def, Option.bind_eq_some, Option.some.injEq] at hres
             obtain ⟨h1, hset, hres⟩ := hres
             subst hres
             exact Or.inr (Or.inr ⟨v, m, nm, rfl, hm, hn, hdup, rfl, Or.inr ⟨rfl, hset⟩⟩))
      · rw [if_pos hdup] at hres
        simp only [Option.pure_def, Option.some.injEq] at hres
        subst hres
        exact Or.inr (Or.inl ⟨v, m, nm, rfl, hm, hn, by simpa using hdup, rfl, rfl, rfl⟩)

/-- The resolver returns whenever the display context, its driver context
and its DRM state can be read and the scan of the table ends. -/
theorem resolver_total {σ : Type} (map : List driver_name_map) (K : Kernel σ) (dpy : Ptr)
    (h : Heap) (w : σ) (c : VADisplayContext) (d : VADriverContext) (st : drm_state)
    (hc : h.display dpy = some c) (hd : h.driver c.pDriverContext = some d)
    (hs : h.drm d.drm_state = some st)
    (hscan : ∀ v, (K.drmGetVersion st.fd w).1 = some v → (scan v map).isSome = true) :
    ∃ r, va_DisplayContextGetDriverName map K dpy h w = some r := by
  unfold va_DisplayContextGetDriverName
  simp only [Option.bind_eq_bind, hc, hd, hs, Option.some_bind, Heap.setDrm, Option.map_some',
    Option.pure_def]
  cases hv : (K.drmGetVersion st.fd w).1 with
  | none => exact ⟨_, rfl⟩
  | some v =>
    obtain ⟨m, hm⟩ := Option.isSome_iff_exists.1 (hscan v hv)
    simp only [hm, Option.some_bind]
    cases hn : m.name with
    | none => exact ⟨_, rfl⟩
    | some nm =>
      simp only
      split_ifs
      all_goals exact ⟨_, rfl⟩


/-- `strdup` of a string without NUL copies the whole string. -/
theorem strdup_eq_self (s : CString) (hs : NUL ∉ s) : strdup s = s := by
  unfold strdup
  rw [List.takeWhile_eq_self_iff]
  intro c hc
  have : c ≠ NUL := fun h => hs (h ▸ hc)
  simpa using this

/-- The resolver on a well-formed table: the scan stops at the first matching
entry and the string stored is the copy of the name of that entry, unless the
allocation of the copy fails. -/
theorem resolver_first_match {σ : Type} (map : List driver_name_map) (hwf : TableWF map)
    (K : Kernel σ) (dpy : Ptr) (h : Heap) (w w1 : σ) (c : VADisplayContext) (d : VADriverContext)
    (st : drm_state) (v : drmVersion) (m : driver_name_map)
    (hc : h.display dpy = some c) (hd : h.driver c.pDriverContext = some d)
    (hs : h.drm d.drm_state = some st) (hv : K.drmGetVersion st.fd w = (some v, w1))
    (hfm : firstMatch v map = some m) :
    scan v map = some m ∧ ∃ nm, m.name = some nm ∧
      ∃ r, va_DisplayContextGetDriverName map K dpy h w = some r ∧
        ((K.strdup_ok nm w1).1 = true → r.driver_name_ptr = some nm) ∧
        ((K.strdup_ok nm w1).1 = false →
          r.driver_name_ptr = none ∧ r.status = VA_STATUS_ERROR_ALLOCATION_FAILED) := by
  obtain ⟨es, term, rfl, hes, hterm⟩ := hwf
  have hscan : scan v (es ++ [term]) = some m := by
    rw [scan_eq_firstMatch v es term hes hterm, hfm]
    rfl
  have hkm : keyMatches v m = true := List.find?_some hfm
  have hmem : m ∈ es := by
    have h1 : m ∈ es ++ [term] := List.mem_of_find?_eq_some hfm
    rcases List.mem_append.1 h1 with h2 | h2
    · exact h2
    · have h3 : m = term := by simpa using h2
      rw [h3] at hkm
      simp [keyMatches, hterm] at hkm
  obtain ⟨k, nm, _, hname, _, _, _, hnul⟩ := hes m hmem
  have hv1 : (K.drmGetVersion st.fd w).1 = some v := by rw [hv]
  have hv2 : (K.drmGetVersion st.fd w).2 = w1 := by rw [hv]
  obtain ⟨r, hr⟩ := resolver_total (es ++ [term]) K dpy h w c d st hc hd hs (by
    intro v1 h1
    rw [hv1] at h1
    cases h1
    rw [hscan]
    rfl)
  refine ⟨hscan, nm, hname, r, hr, ?_⟩
  obtain ⟨c1, d1, st1, hc1, hd1, hs1, hcases⟩ := resolver_cases _ K dpy h w r hr
  rw [hc] at hc1
  cases hc1
  rw [hd] at hd1
  cases hd1
  rw [hs] at hs1
  cases hs1
  rw [hv1, hv2] at hcases
  rcases hcases with ⟨_, _, _, h1 | ⟨v1, m1, e1, e2, e3⟩⟩ | ⟨v1, m1, nm1, e1, e2, e3, e4, e5, e6, _⟩ |
    ⟨v1, m1, nm1, e1, e2, e3, e4, e5, _⟩
  · cases h1
  · cases e1
    rw [hscan] at e2
    cases e2
    rw [hname] at e3
    cases e3
  · cases e1
    rw [hscan] at e2
    cases e2
    rw [hname] at e3
    cases e3
    refine ⟨fun hdup => ?_, fun _ => ⟨e6, e5⟩⟩
    rw [hdup] at e4
    cases e4
  · cases e1
    rw [hscan] at e2
    cases e2
    rw [hname] at e3
    cases e3
    refine ⟨fun _ => ?_, fun hdup => ?_⟩
    · rw [e5, strdup_eq_self nm hnul]
    · rw [hdup] at e4
      cases e4

/-- C1: driver-name matching is prefix-based and first-match-wins. For every
well-formed name table, every kernel-reported name and reported length, the
scan selects the first entry whose key is no longer than the reported length
and is a prefix of the name, and the string handed back through
`driver_name_ptr` is a copy of the mapped name of that entry (nothing is
handed back when the allocation of the copy fails). In particular, with the
table `"i915"`, `"i915x"` in that order and the kernel name `"i915x"` the
result is the mapped name of the first entry, and with the shipped table every
name that begins with `"i915"`, reported with a length that covers it,
resolves to `"i965"`. -/
theorem va_DisplayContextGetDriverName_first_match :
    (∀ (σ : Type) (map : List driver_name_map), TableWF map →
      ∀ (K : Kernel σ) (dpy : Ptr) (h : Heap) (w w1 : σ) (c : VADisplayContext)
        (d : VADriverContext) (st : drm_state) (v : drmVersion) (m : driver_name_map),
      h.display dpy = some c → h.driver c.pDriverContext = some d →
      h.drm d.drm_state = some st → K.drmGetVersion st.fd w = (some v, w1) →
      firstMatch v map = some m →
      scan v map = some m ∧ ∃ nm, m.name = some nm ∧
        ∃ r, va_DisplayContextGetDriverName map K dpy h w = some r ∧
          ((K.strdup_ok nm w1).1 = true → r.driver_name_ptr = some nm) ∧
          ((K.strdup_ok nm w1).1 = false →
            r.driver_name_ptr = none ∧ r.status = VA_STATUS_ERROR_ALLOCATION_FAILED)) ∧
    (∀ (σ : Type) (n1 n2 : CString), NUL ∉ n1 → NUL ∉ n2 →
      ∀ (K : Kernel σ) (dpy : Ptr) (h : Heap) (w w1 : σ) (c : VADisplayContext)
        (d : VADriverContext) (st : drm_state),
      h.display dpy = some c → h.driver c.pDriverContext = some d →
      h.drm d.drm_state = some st →
      K.drmGetVersion st.fd w = (some ⟨5, "i915x".toList⟩, w1) →
      (K.strdup_ok n1 w1).1 = true →
      ∃ r, va_DisplayContextGetDriverName
          [⟨some "i915".toList, 4, some n1⟩, ⟨some "i915x".toList, 5, some n2⟩, ⟨none, 0, none⟩]
          K dpy h w = some r ∧ r.driver_name_ptr = some n1) ∧
    (∀ (σ : Type) (K : Kernel σ) (dpy : Ptr) (h : Heap) (w w1 : σ) (c : VADisplayContext)
        (d : VADriverContext) (st : drm_state) (v : drmVersion),
      h.display dpy = some c → h.driver c.pDriverContext = some d →
      h.drm d.drm_state = some st → K.drmGetVersion st.fd w = (some v, w1) →
      "i915".toList <+: v.name → (v.name.length : Int) ≤ v.name_len →
      (K.strdup_ok "i965".toList w1).1 = true →
      ∃ r, va_DisplayContextGetDriverName g_driver_name_map K dpy h w = some r ∧
        r.driver_name_ptr = some "i965".toList) := by
  refine ⟨?_, ?_, ?_⟩
  · intro σ map hwf K dpy h w w1 c d st v m hc hd hs hv hfm
    exact resolver_first_match map hwf K dpy h w w1 c d st v m hc hd hs hv hfm
  · intro σ n1 n2 hn1 hn2 K dpy h w w1 c d st hc hd hs hv hdup
    have hwf : TableWF [⟨some "i915".toList, 4, some n1⟩, ⟨some "i915x".toList, 5, some n2⟩,
        ⟨none, 0, none⟩] := by
      refine ⟨[⟨some "i915".toList, 4, some n1⟩, ⟨some "i915x".toList, 5, some n2⟩],
        ⟨none, 0, none⟩, rfl, ?_, rfl⟩
      intro m hm
      simp only [List.mem_cons, List.mem_singleton, List.mem_nil_iff, or_false] at hm
      rcases hm with rfl | rfl
      · exact ⟨_, _, rfl, rfl, rfl, by decide, by decide, hn1⟩
      · exact ⟨_, _, rfl, rfl, rfl, by decide, by decide, hn2⟩
    obtain ⟨_, nm, hnm, r, hr, hok, _⟩ := resolver_first_match _ hwf K dpy h w w1 c d st
      ⟨5, "i915x".toList⟩ ⟨some "i915".toList, 4, some n1⟩ hc hd hs hv (by
        simp only [firstMatch]
        rw [List.find?_cons_of_pos]
        rfl)
    cases hnm
    exact ⟨r, hr, hok hdup⟩
  · intro σ K dpy h w w1 c d st v hc hd hs hv hpre hlen hdup
    have hwf : TableWF g_driver_name_map :=
      ⟨g_driver_name_map.take 3, ⟨none, 0, none⟩, rfl, g_driver_name_map_wf, rfl⟩
    have h4 : (4 : Int) ≤ v.name_len := by
      have := hpre.length_le
      have h5 : "i915".toList.length = 4 := by decide
      omega
    obtain ⟨_, nm, hnm, r, hr, hok, _⟩ := resolver_first_match _ hwf K dpy h w w1 c d st
      v ⟨some "i915".toList, 4, some "i965".toList⟩ hc hd hs hv (by
        simp only [firstMatch, g_driver_name_map]
        rw [List.find?_cons_of_pos]
        simp only [keyMatches, Bool.and_eq_true, decide_eq_true_eq]
        exact ⟨h4, hpre⟩)
    cases hnm
    exact ⟨r, hr, hok hdup⟩


/-- Nothing is read through `NULL`. -/
theorem read_null (h : Heap) : h.read 0 = none := by
  simp [Heap.read]

theorem driver_ne_null {h : Heap} {p : Ptr} {d : VADriverContext} (hd : h.driver p = some d) :
    p ≠ 0 := by
  intro h0
  rw [h0] at hd
  simp [Heap.driver, read_null] at hd

theorem vtable_ne_null {h : Heap} {p : Ptr} {v : VADriverVTableDRM} (hv : h.vtable p = some v) :
    p ≠ 0 := by
  intro h0
  rw [h0] at hv
  simp [Heap.vtable, read_null] at hv

/-- Reading a block after writing it. -/
theorem find_map_write (cs : List (Ptr × Obj)) (p : Ptr) (o : Obj)
    (hp : (cs.find? (fun c => decide (c.1 = p))).isSome = true) :
    (cs.map (fun c => if c.1 = p then (p, o) else c)).find? (fun c => decide (c.1 = p))
      = some (p, o) := by
  induction cs with
  | nil => simp at hp
  | cons a cs ih =>
    by_cases ha : a.1 = p
    · simp [ha]
    · have hp1 : (cs.find? (fun c => decide (c.1 = p))).isSome = true := by
        simpa [List.find?_cons, ha] using hp
      simp [List.find?_cons, ha, ih hp1]

/-- An assignment to the DRM state is read back. -/
theorem drm_setDrm (h h1 : Heap) (p : Ptr) (f : drm_state → drm_state) (st : drm_state)
    (hs : h.drm p = some st) (hset : h.setDrm p f = some h1) : h1.drm p = some (f st) := by
  have hp : p ≠ 0 := by
    intro h0
    rw [h0] at hs
    simp [Heap.drm, read_null] at hs
  have hsome : (h.cells.find? (fun c => decide (c.1 = p))).isSome = true := by
    unfold Heap.drm Heap.read at hs
    rw [if_neg hp] at hs
    cases hf : h.cells.find? (fun c => decide (c.1 = p)) with
    | none => rw [hf] at hs; simp at hs
    | some x => rfl
  unfold Heap.setDrm at hset
  rw [hs] at hset
  simp only [Option.map_some', Option.some.injEq] at hset
  subst hset
  unfold Heap.drm Heap.read Heap.write
  rw [if_neg hp]
  simp only [find_map_write h.cells p (Obj.drm (f st)) hsome, Option.map_some']

/-- C8: on a device that is already authenticated (`va_drm_is_authenticated`
answers true on the first check, which the resolver reaches once the copy of
the name is allocated and `drmGetMagic` has returned a non-negative code) and
whose driver name resolves to an entry of the shipped table,
`va_DisplayContextGetDriverName` never calls `va_drm_authenticate`, records
`auth_type = VA_DRM_AUTH_CUSTOM` in the DRM state and returns
`VA_STATUS_SUCCESS`. -/
theorem va_DisplayContextGetDriverName_already_authenticated {σ : Type} (K : Kernel σ)
    (dpy : Ptr) (h : Heap) (w w1 w2 w3 w4 : σ) (c : VADisplayContext) (d : VADriverContext)
    (st : drm_state) (v : drmVersion) (m : driver_name_map) (nm : CString) (ret : Int)
    (magic : Nat)
    (hc : h.display dpy = some c) (hd : h.driver c.pDriverContext = some d)
    (hs : h.drm d.drm_state = some st) (hv : K.drmGetVersion st.fd w = (some v, w1))
    (hfm : firstMatch v g_driver_name_map = some m) (hname : m.name = some nm)
    (hdup : K.strdup_ok nm w1 = (true, w2))
    (hmagic : K.drmGetMagic st.fd w2 = ((ret, magic), w3)) (hret : 0 ≤ ret)
    (hauth : K.va_drm_is_authenticated st.fd w3 = (true, w4)) :
    ∃ r, va_DisplayContextGetDriverName g_driver_name_map K dpy h w = some r ∧
      r.status = VA_STATUS_SUCCESS ∧
      r.calls = [Call.drmGetVersion st.fd, Call.drmFreeVersion, Call.strdup nm true,
        Call.drmGetMagic st.fd ret, Call.va_drm_is_authenticated st.fd true] ∧
      (∀ fd g a, Call.va_drm_authenticate fd g a ∉ r.calls) ∧
      r.heap.drm d.drm_state = some ⟨st.fd, VA_DRM_AUTH_CUSTOM⟩ ∧
      r.driver_name_ptr = some (strdup nm) := by
  have hscan : scan v g_driver_name_map = some m := by
    rw [scan_g_driver_name_map, hfm]
    rfl
  have hnot : ¬ ret < 0 := by omega
  have hset : ∃ h1, h.setDrm d.drm_state (fun s => { s with auth_type := VA_DRM_AUTH_CUSTOM })
      = some h1 := by
    simp [Heap.setDrm, hs]
  obtain ⟨h1, hset⟩ := hset
  have hread := drm_setDrm h h1 d.drm_state _ st hs hset
  refine ⟨⟨VA_STATUS_SUCCESS, some (strdup nm), h1, w4, _⟩, ?_, rfl, rfl, ?_, hread, rfl⟩
  · simp [va_DisplayContextGetDriverName, hc, hd, hs, hv, hscan, hname, hdup, hmagic, hnot, hauth,
      hset]
  · intro fd g a
    simp

/-- C9, as stated, fails: on the display built for descriptor 5, with the
kernel name `"i915"` and a `drmGetMagic` that returns `-1`, the resolver
returns `VA_STATUS_ERROR_OPERATION_FAILED`, which is not
`VA_STATUS_SUCCESS`, and `*driver_name_ptr` holds `"i965"`. -/
theorem va_DisplayContextGetDriverName_failure_keeps_name :
    (va_DisplayContextGetDriverName g_driver_name_map
        (scripted (some ⟨4, "i915".toList⟩) true (-1) true true true) 4 demoHeap 0).map
      (fun r => (r.status, r.driver_name_ptr))
      = some (VA_STATUS_ERROR_OPERATION_FAILED, some "i965".toList) ∧
    VA_STATUS_ERROR_OPERATION_FAILED ≠ VA_STATUS_SUCCESS := by
  constructor
  · decide
  · decide

/-- C9, amended: whenever `va_DisplayContextGetDriverName` returns a status
other than `VA_STATUS_SUCCESS` and other than
`VA_STATUS_ERROR_OPERATION_FAILED`, `*driver_name_ptr` is `NULL` on return;
when it returns `VA_STATUS_ERROR_OPERATION_FAILED`, `*driver_name_ptr` holds
the copy of the name of the matched entry, that is of the entry at which the
scan of the table stopped for the version `drmGetVersion` reported on the
descriptor of the DRM state. -/
theorem va_DisplayContextGetDriverName_null_on_early_failure {σ : Type}
    (map : List driver_name_map) (K : Kernel σ) (dpy : Ptr) (h : Heap) (w : σ)
    (r : GetDriverNameResult σ)
    (hres : va_DisplayContextGetDriverName map K dpy h w = some r) :
    (r.status ≠ VA_STATUS_SUCCESS → r.status ≠ VA_STATUS_ERROR_OPERATION_FAILED →
      r.driver_name_ptr = none) ∧
    (r.status = VA_STATUS_ERROR_OPERATION_FAILED →
      ∃ c d st v m nm, h.display dpy = some c ∧ h.driver c.pDriverContext = some d ∧
        h.drm d.drm_state = some st ∧ (K.drmGetVersion st.fd w).1 = some v ∧
        scan v map = some m ∧ m.name = some nm ∧ r.driver_name_ptr = some (strdup nm)) := by
  obtain ⟨c, d, st, hc, hd, hs, hcases⟩ := resolver_cases map K dpy h w r hres
  rcases hcases with ⟨e, hp, _⟩ | ⟨_, _, _, _, _, _, _, e, hp, _⟩ |
    ⟨v, m, nm, hv, hscan, hname, _, hp, ⟨e, _⟩ | ⟨e, _⟩⟩
  · refine ⟨fun _ _ => hp, fun h1 => ?_⟩
    rw [e] at h1
    exact absurd h1 (by decide)
  · refine ⟨fun _ _ => hp, fun h1 => ?_⟩
    rw [e] at h1
    exact absurd h1 (by decide)
  · exact ⟨fun _ h2 => absurd e h2,
      fun _ => ⟨c, d, st, v, m, nm, hc, hd, hs, hv, hscan, hname, hp⟩⟩
  · refine ⟨fun h1 _ => absurd e h1, fun h1 => ?_⟩
    rw [e] at h1
    exact absurd h1 (by decide)

/-! ## Properties of the buffer accessors -/

/-- On a valid display `INIT_CONTEXT` yields the driver context. -/
theorem INIT_CONTEXT_valid (dpy : Ptr) (h : Heap) (b : Int) (c : VADisplayContext)
    (d : VADriverContext) (hvalid : vaDisplayIsValid dpy h = some b) (hb : b ≠ 0)
    (hc : h.display dpy = some c) (hd : h.driver c.pDriverContext = some d) :
    INIT_CONTEXT dpy h = some (Sum.inr c.pDriverContext) := by
  have hne := driver_ne_null hd
  simp [INIT_CONTEXT, hvalid, hb, hc, hne]

/-- The outcomes of `INVOKE`: "unimplemented" with nothing touched and no
call, or the one call of the entry of the dispatch table of the driver
context, whose status and heap are handed back. -/
theorem INVOKE_cases (vendor : Vendor) (ctx : Ptr) (func : VADriverVTableDRM → Nat) (id : Nat)
    (out : Ptr) (h : Heap) (r : AccessResult) (hres : INVOKE vendor ctx func id out h = some r) :
    r = ⟨VA_STATUS_ERROR_UNIMPLEMENTED, h, []⟩ ∨
      ∃ d vt, h.driver ctx = some d ∧ h.vtable d.vtable_drm = some vt ∧ func vt ≠ 0 ∧
        r = ⟨(vendor (func vt) ctx id out h).1, (vendor (func vt) ctx id out h).2,
          [⟨func vt, ctx, id, out⟩]⟩ := by
  unfold INVOKE at hres
  simp only [Option.bind_eq_bind, Option.bind_eq_some] at hres
  obtain ⟨d, hd, hres⟩ := hres
  split_ifs at hres
  · simp only [Option.pure_def, Option.some.injEq] at hres
    exact Or.inl hres.symm
  · simp only [Option.bind_eq_some] at hres
    obtain ⟨vt, hvt, hres⟩ := hres
    split_ifs at hres with h0
    · simp only [Option.pure_def, Option.some.injEq] at hres
      exact Or.inl hres.symm
    · simp only [Option.pure_def, Option.some.injEq] at hres
      exact Or.inr ⟨d, vt, hd, hvt, h0, hres.symm⟩

/-- The outcomes of `INIT_CONTEXT`: "invalid display", or the driver context
of the display context the handle points to. -/
theorem INIT_CONTEXT_cases (dpy : Ptr) (h : Heap) (x : VAStatus ⊕ Ptr)
    (hres : INIT_CONTEXT dpy h = some x) :
    x = Sum.inl VA_STATUS_ERROR_INVALID_DISPLAY ∨
      ∃ c, h.display dpy = some c ∧ x = Sum.inr c.pDriverContext := by
  unfold INIT_CONTEXT at hres
  simp only [Option.bind_eq_bind, Option.bind_eq_some] at hres
  obtain ⟨b, _, hres⟩ := hres
  split_ifs at hres
  · simp only [Option.pure_def, Option.some.injEq] at hres
    exact Or.inl hres.symm
  · simp only [Option.bind_eq_some] at hres
    obtain ⟨c, hc, hres⟩ := hres
    split_ifs at hres
    · simp only [Option.pure_def, Option.some.injEq] at hres
      exact Or.inl hres.symm
    · simp only [Option.pure_def, Option.some.injEq] at hres
      exact Or.inr ⟨c, hc, hres.symm⟩

/-- C2: for every valid display whose dispatch table has the relevant entry
populated, every object identifier and every output pointer,
`vaGetSurfaceBufferDRM` (resp. `vaGetImageBufferDRM`) calls the vendor
handler exactly once, with the driver context of the display, the object
identifier and the output pointer it was given, and returns the status the
handler returned, whatever it is; the heap it leaves is the one the handler
left. -/
theorem accessor_forwards (vendor : Vendor) (dpy : Ptr) (id : Nat) (out : Ptr) (h : Heap) (b : Int)
    (c : VADisplayContext) (d : VADriverContext) (vt : VADriverVTableDRM)
    (hvalid : vaDisplayIsValid dpy h = some b) (hb : b ≠ 0)
    (hc : h.display dpy = some c) (hd : h.driver c.pDriverContext = some d)
    (hvt : h.vtable d.vtable_drm = some vt) :
    (vt.vaGetSurfaceBufferDRM ≠ 0 →
      vaGetSurfaceBufferDRM vendor dpy id out h
        = some ⟨(vendor vt.vaGetSurfaceBufferDRM c.pDriverContext id out h).1,
            (vendor vt.vaGetSurfaceBufferDRM c.pDriverContext id out h).2,
            [⟨vt.vaGetSurfaceBufferDRM, c.pDriverContext, id, out⟩]⟩) ∧
    (vt.vaGetImageBufferDRM ≠ 0 →
      vaGetImageBufferDRM vendor dpy id out h
        = some ⟨(vendor vt.vaGetImageBufferDRM c.pDriverContext id out h).1,
            (vendor vt.vaGetImageBufferDRM c.pDriverContext id out h).2,
            [⟨vt.vaGetImageBufferDRM, c.pDriverContext, id, out⟩]⟩) := by
  have hinit := INIT_CONTEXT_valid dpy h b c d hvalid hb hc hd
  have hne := vtable_ne_null hvt
  constructor
  · intro hfn
    simp [vaGetSurfaceBufferDRM, hinit, INVOKE, hd, hne, hvt, hfn]
  · intro hfn
    simp [vaGetImageBufferDRM, hinit, INVOKE, hd, hne, hvt, hfn]

/-- C3: for every valid display whose dispatch table is absent, or present
with the relevant entry absent, `vaGetSurfaceBufferDRM` (resp.
`vaGetImageBufferDRM`) returns `VA_STATUS_ERROR_UNIMPLEMENTED`, calls no
vendor handler and leaves the heap, hence the output structure, as it was. -/
theorem accessor_unimplemented (vendor : Vendor) (dpy : Ptr) (id : Nat) (out : Ptr) (h : Heap)
    (b : Int) (c : VADisplayContext) (d : VADriverContext)
    (hvalid : vaDisplayIsValid dpy h = some b) (hb : b ≠ 0)
    (hc : h.display dpy = some c) (hd : h.driver c.pDriverContext = some d) :
    ((d.vtable_drm = 0 ∨ ∃ vt, h.vtable d.vtable_drm = some vt ∧ vt.vaGetSurfaceBufferDRM = 0) →
      vaGetSurfaceBufferDRM vendor dpy id out h = some ⟨VA_STATUS_ERROR_UNIMPLEMENTED, h, []⟩) ∧
    ((d.vtable_drm = 0 ∨ ∃ vt, h.vtable d.vtable_drm = some vt ∧ vt.vaGetImageBufferDRM = 0) →
      vaGetImageBufferDRM vendor dpy id out h = some ⟨VA_STATUS_ERROR_UNIMPLEMENTED, h, []⟩) := by
  have hinit := INIT_CONTEXT_valid dpy h b c d hvalid hb hc hd
  constructor
  · rintro (h0 | ⟨vt, hvt, h0⟩)
    · simp [vaGetSurfaceBufferDRM, hinit, INVOKE, hd, h0]
    · have hne := vtable_ne_null hvt
      simp [vaGetSurfaceBufferDRM, hinit, INVOKE, hd, hne, hvt, h0]
  · rintro (h0 | ⟨vt, hvt, h0⟩)
    · simp [vaGetImageBufferDRM, hinit, INVOKE, hd, h0]
    · have hne := vtable_ne_null hvt
      simp [vaGetImageBufferDRM, hinit, INVOKE, hd, hne, hvt, h0]

/-- C10, as stated, fails: on a display whose dispatch table is populated, a
vendor handler that answers 6 (`VA_STATUS_ERROR_INVALID_SURFACE`) makes
`vaGetSurfaceBufferDRM` return 6, which is none of the six listed statuses. -/
theorem accessor_returns_unlisted_status :
    (vaGetSurfaceBufferDRM demoVendor 4 9 0 demoHeapPopulated).map AccessResult.status = some 6 ∧
    (6 : VAStatus) ∉ listedStatuses := by
  constructor
  · decide
  · decide

/-- C10, amended: every status `va_DisplayContextGetDriverName` returns is
success, unknown-error, allocation-failure or operation-failed. Every status
`vaGetSurfaceBufferDRM` or `vaGetImageBufferDRM` returns is invalid-display
or unimplemented, with no vendor call and the heap untouched, or else exactly
the status the vendor handler returned for the call: the accessor made one
call, of the relevant entry of the dispatch table of the display, on the
driver context of the display, the identifier and the output pointer it was
given, and hands back the status and the heap of that call. -/
theorem returned_statuses :
    (∀ (σ : Type) (map : List driver_name_map) (K : Kernel σ) (dpy : Ptr) (h : Heap) (w : σ)
        (r : GetDriverNameResult σ),
      va_DisplayContextGetDriverName map K dpy h w = some r →
      r.status ∈ [VA_STATUS_SUCCESS, VA_STATUS_ERROR_UNKNOWN, VA_STATUS_ERROR_ALLOCATION_FAILED,
        VA_STATUS_ERROR_OPERATION_FAILED]) ∧
    (∀ (vendor : Vendor) (dpy : Ptr) (id : Nat) (out : Ptr) (h : Heap) (r : AccessResult),
      vaGetSurfaceBufferDRM vendor dpy id out h = some r →
      r = ⟨VA_STATUS_ERROR_INVALID_DISPLAY, h, []⟩ ∨ r = ⟨VA_STATUS_ERROR_UNIMPLEMENTED, h, []⟩ ∨
        ∃ c d vt, h.display dpy = some c ∧ h.driver c.pDriverContext = some d ∧
          h.vtable d.vtable_drm = some vt ∧ vt.vaGetSurfaceBufferDRM ≠ 0 ∧
          r.calls = [⟨vt.vaGetSurfaceBufferDRM, c.pDriverContext, id, out⟩] ∧
          r.status = (vendor vt.vaGetSurfaceBufferDRM c.pDriverContext id out h).1 ∧
          r.heap = (vendor vt.vaGetSurfaceBufferDRM c.pDriverContext id out h).2) ∧
    (∀ (vendor : Vendor) (dpy : Ptr) (id : Nat) (out : Ptr) (h : Heap) (r : AccessResult),
      vaGetImageBufferDRM vendor dpy id out h = some r →
      r = ⟨VA_STATUS_ERROR_INVALID_DISPLAY, h, []⟩ ∨ r = ⟨VA_STATUS_ERROR_UNIMPLEMENTED, h, []⟩ ∨
        ∃ c d vt, h.display dpy = some c ∧ h.driver c.pDriverContext = some d ∧
          h.vtable d.vtable_drm = some vt ∧ vt.vaGetImageBufferDRM ≠ 0 ∧
          r.calls = [⟨vt.vaGetImageBufferDRM, c.pDriverContext, id, out⟩] ∧
          r.status = (vendor vt.vaGetImageBufferDRM c.pDriverContext id out h).1 ∧
          r.heap = (vendor vt.vaGetImageBufferDRM c.pDriverContext id out h).2) := by
  refine ⟨?_, ?_, ?_⟩
  · intro σ map K dpy h w r hres
    obtain ⟨c, d, st, _, _, _, hcases⟩ := resolver_cases map K dpy h w r hres
    rcases hcases with ⟨e, _⟩ | ⟨_, _, _, _, _, _, _, e, _⟩ |
      ⟨_, _, _, _, _, _, _, _, ⟨e, _⟩ | ⟨e, _⟩⟩
    all_goals simp [e]
  · intro vendor dpy id out h r hres
    unfold vaGetSurfaceBufferDRM at hres
    simp only [Option.bind_eq_bind, Option.bind_eq_some] at hres
    obtain ⟨x, hx, hres⟩ := hres
    rcases INIT_CONTEXT_cases dpy h x hx with rfl | ⟨c, hc, rfl⟩
    · simp only [Option.pure_def, Option.some.injEq] at hres
      exact Or.inl hres.symm
    · rcases INVOKE_cases vendor c.pDriverContext _ id out h r hres with
        e | ⟨d, vt, hd, hvt, h0, e⟩
      · exact Or.inr (Or.inl e)
      · subst e
        exact Or.inr (Or.inr ⟨c, d, vt, hc, hd, hvt, h0, rfl, rfl, rfl⟩)
  · intro vendor dpy id out h r hres
    unfold vaGetImageBufferDRM at hres
    simp only [Option.bind_eq_bind, Option.bind_eq_some] at hres
    obtain ⟨x, hx, hres⟩ := hres
    rcases INIT_CONTEXT_cases dpy h x hx with rfl | ⟨c, hc, rfl⟩
    · simp only [Option.pure_def, Option.some.injEq] at hres
      exact Or.inl hres.symm
    · rcases INVOKE_cases vendor c.pDriverContext _ id out h r hres with
        e | ⟨d, vt, hd, hvt, h0, e⟩
      · exact Or.inr (Or.inl e)
      · subst e
        exact Or.inr (Or.inr ⟨c, d, vt, hc, hd, hvt, h0, rfl, rfl, rfl⟩)

/-! ## Instances on concrete inputs -/

/-- No key of the shipped table is a prefix of `"radeon"`. -/
theorem radeon_matches_no_key :
    ∀ m ∈ g_driver_name_map, ∀ k, m.key = some k → ¬ k <+: "radeon".toList := by
  intro m hm k hk
  simp only [g_driver_name_map, List.mem_cons, List.mem_singleton, List.mem_nil_iff,
    or_false] at hm
  rcases hm with rfl | rfl | rfl | rfl
  · cases hk
    decide
  · cases hk
    decide
  · cases hk
    decide
  · cases hk

/-- Instance of C1: the kernel name `"i915x"` against the shipped table. -/
theorem va_DisplayContextGetDriverName_first_match_witness :
    firstMatch ⟨5, "i915x".toList⟩ g_driver_name_map
        = some ⟨some "i915".toList, 4, some "i965".toList⟩ ∧
      (scan ⟨5, "i915x".toList⟩ g_driver_name_map
          = some ⟨some "i915".toList, 4, some "i965".toList⟩ ∧
        ∃ nm, (⟨some "i915".toList, 4, some "i965".toList⟩ : driver_name_map).name = some nm ∧
          ∃ r, va_DisplayContextGetDriverName g_driver_name_map
              (scripted (some ⟨5, "i915x".toList⟩) true 0 true true true) 4 demoHeap 0 = some r ∧
            (((scripted (some ⟨5, "i915x".toList⟩) true 0 true true true).strdup_ok nm 0).1 = true →
              r.driver_name_ptr = some nm) ∧
            (((scripted (some ⟨5, "i915x".toList⟩) true 0 true true true).strdup_ok nm 0).1 = false →
              r.driver_name_ptr = none ∧ r.status = VA_STATUS_ERROR_ALLOCATION_FAILED)) :=
  ⟨by decide,
   va_DisplayContextGetDriverName_first_match.1 Nat g_driver_name_map
    ⟨g_driver_name_map.take 3, ⟨none, 0, none⟩, rfl, g_driver_name_map_wf, rfl⟩
    (scripted (some ⟨5, "i915x".toList⟩) true 0 true true true) 4 demoHeap 0 0
    ⟨VA_DISPLAY_MAGIC, 2, FuncPtr.va_DisplayContextIsValid, FuncPtr.va_DisplayContextDestroy,
      FuncPtr.va_DisplayContextGetDriverName⟩
    ⟨0, VA_DISPLAY_DRM, 1, 3⟩ ⟨5, 0⟩ ⟨5, "i915x".toList⟩
    ⟨some "i915".toList, 4, some "i965".toList⟩ (by decide) (by decide) (by decide) rfl
    (by decide)⟩

/-- Instance of C2: a populated dispatch table and a handler that answers 6. -/
theorem accessor_forwards_witness :
    (vaDisplayIsValid 4 demoHeapPopulated = some 1 ∧ (1 : Int) ≠ 0) ∧
      ((77 ≠ 0 → vaGetSurfaceBufferDRM demoVendor 4 9 0 demoHeapPopulated
          = some ⟨6, demoHeapPopulated, [⟨77, 2, 9, 0⟩]⟩) ∧
       (78 ≠ 0 → vaGetImageBufferDRM demoVendor 4 9 0 demoHeapPopulated
          = some ⟨6, demoHeapPopulated, [⟨78, 2, 9, 0⟩]⟩)) :=
  ⟨⟨by decide, by decide⟩,
   accessor_forwards demoVendor 4 9 0 demoHeapPopulated 1
    ⟨VA_DISPLAY_MAGIC, 2, FuncPtr.va_DisplayContextIsValid, FuncPtr.va_DisplayContextDestroy,
      FuncPtr.va_DisplayContextGetDriverName⟩
    ⟨0, VA_DISPLAY_DRM, 1, 3⟩ ⟨7, 77, 78⟩ (by decide) (by decide) (by decide) (by decide)
    (by decide)⟩

/-- Instance of C3: the zero-initialised dispatch table of a fresh display. -/
theorem accessor_unimplemented_witness :
    (vaDisplayIsValid 4 demoHeap = some 1 ∧ (1 : Int) ≠ 0) ∧
      (((3 = 0 ∨ ∃ vt, demoHeap.vtable 3 = some vt ∧ vt.vaGetSurfaceBufferDRM = 0) →
        vaGetSurfaceBufferDRM demoVendor 4 9 0 demoHeap
          = some ⟨VA_STATUS_ERROR_UNIMPLEMENTED, demoHeap, []⟩) ∧
       ((3 = 0 ∨ ∃ vt, demoHeap.vtable 3 = some vt ∧ vt.vaGetImageBufferDRM = 0) →
        vaGetImageBufferDRM demoVendor 4 9 0 demoHeap
          = some ⟨VA_STATUS_ERROR_UNIMPLEMENTED, demoHeap, []⟩)) :=
  ⟨⟨by decide, by decide⟩,
   accessor_unimplemented demoVendor 4 9 0 demoHeap 1
    ⟨VA_DISPLAY_MAGIC, 2, FuncPtr.va_DisplayContextIsValid, FuncPtr.va_DisplayContextDestroy,
      FuncPtr.va_DisplayContextGetDriverName⟩
    ⟨0, VA_DISPLAY_DRM, 1, 3⟩ (by decide) (by decide) (by decide) (by decide)⟩

/-- Instance of C4: descriptor 5 on the empty heap, every allocation succeeding. -/
theorem vaGetDisplayDRM_valid_witness :
    ((0 : Int) ≤ 5 ∧ vaGetDisplayDRM 7 (fun _ => true) 5 Heap.empty = some (4, demoHeap) ∧
      (4 : Ptr) ≠ 0) ∧
    (va_DisplayContextIsValid 4 demoHeap = some 1 ∧
      ∃ c d s, demoHeap.display 4 = some c ∧ demoHeap.driver c.pDriverContext = some d ∧
        demoHeap.drm d.drm_state = some s ∧
        d.display_type = VA_DISPLAY_DRM ∧ c.vadpy_magic = VA_DISPLAY_MAGIC ∧ s.fd = 5) :=
  ⟨⟨by decide, by decide, by decide⟩,
   vaGetDisplayDRM_valid 7 (fun _ => true) 5 Heap.empty demoHeap 4 (by decide) (by decide)
    (by decide)⟩

/-- Instance of C6: the display built for descriptor 5 on the empty heap. -/
theorem va_DisplayContextDestroy_releases_witness :
    (vaGetDisplayDRM 7 (fun _ => true) 5 Heap.empty = some (4, demoHeap) ∧ (4 : Ptr) ≠ 0) ∧
    ∃ d s v h2, FullyLinked demoHeap 4 d s v ∧
      allocated (newEvents Heap.empty demoHeap) = [s, d, v, 4] ∧
      va_DisplayContextDestroy 4 demoHeap = some h2 ∧
      h2.trace = demoHeap.trace ++ [MemEvent.free v, MemEvent.free s, MemEvent.free d,
        MemEvent.free 4] ∧
      h2.cells = Heap.empty.cells :=
  ⟨⟨by decide, by decide⟩,
   va_DisplayContextDestroy_releases.2 7 (fun _ => true) 5 Heap.empty demoHeap 4 (by decide)
    (by decide)⟩

/-- Instance of C7: the kernel name `"radeon"`. -/
theorem va_DisplayContextGetDriverName_unknown_name_witness :
    (demoHeap.display 4 = some ⟨VA_DISPLAY_MAGIC, 2, FuncPtr.va_DisplayContextIsValid,
        FuncPtr.va_DisplayContextDestroy, FuncPtr.va_DisplayContextGetDriverName⟩ ∧
      demoHeap.driver 2 = some ⟨0, VA_DISPLAY_DRM, 1, 3⟩ ∧ demoHeap.drm 1 = some ⟨5, 0⟩) ∧
    ∃ r, va_DisplayContextGetDriverName g_driver_name_map
        (scripted (some ⟨6, "radeon".toList⟩) true 0 true true true) 4 demoHeap 0 = some r ∧
      r.status = VA_STATUS_ERROR_UNKNOWN ∧ r.driver_name_ptr = none ∧
      r.calls = [Call.drmGetVersion 5, Call.drmFreeVersion] ∧ r.heap = demoHeap :=
  ⟨⟨by decide, by decide, by decide⟩,
   va_DisplayContextGetDriverName_unknown_name
    (scripted (some ⟨6, "radeon".toList⟩) true 0 true true true) 4 demoHeap 0 0
    ⟨VA_DISPLAY_MAGIC, 2, FuncPtr.va_DisplayContextIsValid, FuncPtr.va_DisplayContextDestroy,
      FuncPtr.va_DisplayContextGetDriverName⟩
    ⟨0, VA_DISPLAY_DRM, 1, 3⟩ ⟨5, 0⟩ ⟨6, "radeon".toList⟩ (by decide) (by decide) (by decide) rfl
    radeon_matches_no_key⟩

/-- Instance of C8: the kernel name `"i915"` on an authenticated device. -/
theorem va_DisplayContextGetDriverName_already_authenticated_witness :
    (firstMatch ⟨4, "i915".toList⟩ g_driver_name_map
        = some ⟨some "i915".toList, 4, some "i965".toList⟩ ∧ (0 : Int) ≤ 0) ∧
    ∃ r, va_DisplayContextGetDriverName g_driver_name_map
        (scripted (some ⟨4, "i915".toList⟩) true 0 true false false) 4 demoHeap 0 = some r ∧
      r.status = VA_STATUS_SUCCESS ∧
      r.calls = [Call.drmGetVersion 5, Call.drmFreeVersion, Call.strdup "i965".toList true,
        Call.drmGetMagic 5 0, Call.va_drm_is_authenticated 5 true] ∧
      (∀ fd g a, Call.va_drm_authenticate fd g a ∉ r.calls) ∧
      r.heap.drm 1 = some ⟨5, VA_DRM_AUTH_CUSTOM⟩ ∧
      r.driver_name_ptr = some (strdup "i965".toList) :=
  ⟨⟨by decide, by decide⟩,
   va_DisplayContextGetDriverName_already_authenticated
    (scripted (some ⟨4, "i915".toList⟩) true 0 true false false) 4 demoHeap 0 0 0 0 1
    ⟨VA_DISPLAY_MAGIC, 2, FuncPtr.va_DisplayContextIsValid, FuncPtr.va_DisplayContextDestroy,
      FuncPtr.va_DisplayContextGetDriverName⟩
    ⟨0, VA_DISPLAY_DRM, 1, 3⟩ ⟨5, 0⟩ ⟨4, "i915".toList⟩
    ⟨some "i915".toList, 4, some "i965".toList⟩ "i965".toList 0 42
    (by decide) (by decide) (by decide) rfl (by decide) rfl rfl rfl (by decide) rfl⟩

/-- Instance of the amended C9: `drmGetMagic` fails after the name `"i965"`
of the entry matched by `"i915"` was stored. -/
theorem va_DisplayContextGetDriverName_null_on_early_failure_witness :
    ∃ r, va_DisplayContextGetDriverName g_driver_name_map
        (scripted (some ⟨4, "i915".toList⟩) true (-1) true true true) 4 demoHeap 0 = some r ∧
      r.status = VA_STATUS_ERROR_OPERATION_FAILED ∧
      (r.status ≠ VA_STATUS_SUCCESS → r.status ≠ VA_STATUS_ERROR_OPERATION_FAILED →
        r.driver_name_ptr = none) ∧
      (r.status = VA_STATUS_ERROR_OPERATION_FAILED →
        ∃ c d st v m nm, demoHeap.display 4 = some c ∧
          demoHeap.driver c.pDriverContext = some d ∧ demoHeap.drm d.drm_state = some st ∧
          ((scripted (some ⟨4, "i915".toList⟩) true (-1) true true true).drmGetVersion st.fd 0).1
            = some v ∧
          scan v g_driver_name_map = some m ∧ m.name = some nm ∧
          r.driver_name_ptr = some (strdup nm)) :=
  ⟨⟨VA_STATUS_ERROR_OPERATION_FAILED, some "i965".toList, demoHeap, 0,
      [Call.drmGetVersion 5, Call.drmFreeVersion, Call.strdup "i965".toList true,
        Call.drmGetMagic 5 (-1)]⟩, rfl, rfl,
   va_DisplayContextGetDriverName_null_on_early_failure g_driver_name_map
    (scripted (some ⟨4, "i915".toList⟩) true (-1) true true true) 4 demoHeap 0 _ rfl⟩

/-- Instance of the amended C10: the status of the vendor handler is forwarded. -/
theorem returned_statuses_witness :
    vaGetSurfaceBufferDRM demoVendor 4 9 0 demoHeapPopulated
        = some ⟨6, demoHeapPopulated, [⟨77, 2, 9, 0⟩]⟩ ∧
      ((⟨6, demoHeapPopulated, [⟨77, 2, 9, 0⟩]⟩ : AccessResult)
          = ⟨VA_STATUS_ERROR_INVALID_DISPLAY, demoHeapPopulated, []⟩ ∨
        (⟨6, demoHeapPopulated, [⟨77, 2, 9, 0⟩]⟩ : AccessResult)
          = ⟨VA_STATUS_ERROR_UNIMPLEMENTED, demoHeapPopulated, []⟩ ∨
        ∃ c d vt, demoHeapPopulated.display 4 = some c ∧
          demoHeapPopulated.driver c.pDriverContext = some d ∧
          demoHeapPopulated.vtable d.vtable_drm = some vt ∧ vt.vaGetSurfaceBufferDRM ≠ 0 ∧
          (⟨6, demoHeapPopulated, [⟨77, 2, 9, 0⟩]⟩ : AccessResult).calls
            = [⟨vt.vaGetSurfaceBufferDRM, c.pDriverContext, 9, 0⟩] ∧
          (⟨6, demoHeapPopulated, [⟨77, 2, 9, 0⟩]⟩ : AccessResult).status
            = (demoVendor vt.vaGetSurfaceBufferDRM c.pDriverContext 9 0 demoHeapPopulated).1 ∧
          (⟨6, demoHeapPopulated, [⟨77, 2, 9, 0⟩]⟩ : AccessResult).heap
            = (demoVendor vt.vaGetSurfaceBufferDRM c.pDriverContext 9 0 demoHeapPopulated).2) :=
  ⟨by decide,
   returned_statuses.2.1 demoVendor 4 9 0 demoHeapPopulated
    ⟨6, demoHeapPopulated, [⟨77, 2, 9, 0⟩]⟩ (by decide)⟩

/-- Instance of C5: the fourth allocation fails. -/
theorem vaGetDisplayDRM_all_or_nothing_witness :
    ∃ dpy h1, vaGetDisplayDRM 7 (fun n => decide (n ≠ 3)) 5 Heap.empty = some (dpy, h1) ∧
      h1.trace = Heap.empty.trace ++ newEvents Heap.empty h1 ∧
      ((5 : Int) < 0 → dpy = 0 ∧ h1 = Heap.empty) ∧
      (dpy ≠ 0 → ∃ d s v, FullyLinked h1 dpy d s v ∧
        allocated (newEvents Heap.empty h1) = [s, d, v, dpy] ∧
        released (newEvents Heap.empty h1) = []) ∧
      (dpy = 0 → h1.cells = Heap.empty.cells ∧ (released (newEvents Heap.empty h1)).Nodup ∧
        (released (newEvents Heap.empty h1)).Perm (allocated (newEvents Heap.empty h1))) :=
  vaGetDisplayDRM_all_or_nothing 7 (fun n => decide (n ≠ 3)) 5 Heap.empty

end VaDrm
